import Mathlib

/-!
# InvoicesList: session-authenticated invoice retrieval

A shallow embedding of the two React components of the repository,
`SAPInvoicesComponent` (`src/SAPInvoicesComponent.jsx`) and `InvoicesList`
(`src/Components.jsx`), followed by theorems about them.

Conventions of the embedding

* A JavaScript string that the code takes apart (header values, cookie names,
  customer codes, session identifiers) is a `List Char`; fixed messages that
  the code only stores and compares are Lean `String`s. The code splits only
  at the ASCII characters `,`, `;` and `=` and trims white space, for which
  code points and UTF-16 code units agree.
* A JavaScript value produced by `response.json()` is a `JSValue`. A number
  is an IEEE 754 binary64 value (`JSNumber`): a finite one is given by its
  exact rational value, and `+` rounds the exact sum to the nearest
  representable value, ties to the even significand.
* `fetch` and `response.json()` are the environment: what they deliver is an
  input (`NetOutcome`, `Response`), and the component is a transition system
  whose events are "effect ran", "login settled", "timer fired" and
  "invoice request settled".
-/

set_option autoImplicit false

namespace InvoicesList

/-! ## JavaScript strings -/

/-- White space and line terminators, the code points `String.prototype.trim`
removes. -/
def isTrimChar (c : Char) : Bool :=
  let n := c.toNat
  n == 0x09 || n == 0x0A || n == 0x0B || n == 0x0C || n == 0x0D || n == 0x20 ||
  n == 0xA0 || n == 0x1680 || (0x2000 ≤ n && n ≤ 0x200A) || n == 0x2028 ||
  n == 0x2029 || n == 0x202F || n == 0x205F || n == 0x3000 || n == 0xFEFF

/-- The method `String.prototype.trim`. -/
def trim (s : List Char) : List Char :=
  ((s.dropWhile isTrimChar).reverse.dropWhile isTrimChar).reverse

/-- The method `String.prototype.split` with a one-character separator and no
limit: the pieces between the separators, always at least one piece. -/
def split (sep : Char) : List Char → List (List Char)
  | [] => [[]]
  | c :: cs =>
    if c = sep then [] :: split sep cs
    else
      match split sep cs with
      | [] => [[c]]
      | piece :: pieces => (c :: piece) :: pieces

/-- Truthiness of a destructured array element that is a string or
`undefined` (`none`): only a non-empty string is truthy. -/
def truthyStr : Option (List Char) → Bool
  | none => false
  | some s => !s.isEmpty

/-! ## The `cookies` object -/

/-- A plain object whose values are strings, as own properties in insertion
order. -/
abbrev Cookies := List (List Char × List Char)

/-- Property read `cookies[name]`; `none` is `undefined`. -/
def Cookies.get (cookies : Cookies) (name : List Char) : Option (List Char) :=
  (cookies.find? (fun p => p.1 == name)).map Prod.snd

/-- Writes the own property `name`, replacing the value in place when the
property exists and appending it otherwise. -/
def Cookies.put : Cookies → List Char → List Char → Cookies
  | [], name, value => [(name, value)]
  | (k, v) :: rest, name, value =>
    if k = name then (k, value) :: rest else (k, v) :: Cookies.put rest name value

/-- Assignment `cookies[name] = value` on an object created by `{}`. The key
`__proto__` reaches the inherited setter, which ignores a string, so no
property is created for it. -/
def Cookies.assign (cookies : Cookies) (name value : List Char) : Cookies :=
  if name = "__proto__".toList then cookies else Cookies.put cookies name value

/-! ## `extractSessionCookies` (SAPInvoicesComponent.jsx, lines 10-26) -/

/-- The body of the `forEach` callback: `nameValue` is the text before the
first `;` of the trimmed entry, `name` and `value` the first two pieces of
`nameValue` around `=`. -/
def addCookie (cookies : Cookies) (cookieString : List Char) : Cookies :=
  let nameValue := (split ';' (trim cookieString)).headD []
  let parts := split '=' nameValue
  let name := parts.head?
  let value := parts.tail.head?
  if truthyStr name && truthyStr value then
    Cookies.assign cookies (trim (name.getD [])) (trim (value.getD []))
  else cookies

/-- The function `extractSessionCookies`, applied to what
`response.headers.get("set-cookie")` returns (`none` is `null`). -/
def extractSessionCookies (setCookieHeader : Option (List Char)) : Cookies :=
  if truthyStr setCookieHeader then
    (split ',' (setCookieHeader.getD [])).foldl addCookie []
  else []

/-! ## JavaScript numbers -/

/-- A JavaScript number, an IEEE 754 binary64 value: `NaN`, an infinity, a
zero with its sign, or a finite non-zero value given by its exact rational
value. -/
inductive JSNumber where
  | nan
  | infinity (negative : Bool)
  | zero (negative : Bool)
  | finite (value : ℚ)
deriving DecidableEq

/-- The power `2 ^ e` for an integer exponent. -/
def pow2 (e : Int) : ℚ :=
  if 0 ≤ e then ((2 ^ e.toNat : Nat) : ℚ) else 1 / ((2 ^ (-e).toNat : Nat) : ℚ)

/-- The position of the leading bit of `n`, found in at most `fuel`
halvings. -/
def log2Fuel : Nat → Nat → Nat
  | 0, _ => 0
  | fuel + 1, n => if n < 2 then 0 else log2Fuel fuel (n / 2) + 1

/-- For positive `n`, the exponent `p` with `2 ^ p ≤ n < 2 ^ (p + 1)`. -/
def log2 (n : Nat) : Nat :=
  log2Fuel n n

/-- For positive `x`, the exponent `p` with `2 ^ p ≤ x < 2 ^ (p + 1)`. -/
def floorLog2 (x : ℚ) : Int :=
  let p : Int := (log2 x.num.natAbs : Int) - (log2 x.den : Int)
  if x < pow2 p then p - 1 else p

/-- Rounds a non-negative rational to the nearest binary64 value, ties to the
even significand: the spacing is `2 ^ q` with `q` 52 below the leading bit
and at least -1074, a result of `2 ^ 1024` or more is an infinity, and
`negative` is the sign of the result. -/
def JSNumber.roundAbs (negative : Bool) (x : ℚ) : JSNumber :=
  if x = 0 then .zero negative
  else
    let q : Int := max (floorLog2 x - 52) (-1074)
    let scaled : ℚ := x / pow2 q
    let m0 : Nat := scaled.num.natAbs / scaled.den
    let r : ℚ := scaled - (m0 : ℚ)
    let m : Nat :=
      if r < 1 / 2 then m0
      else if 1 / 2 < r then m0 + 1
      else if m0 % 2 = 0 then m0 else m0 + 1
    let v : ℚ := (m : ℚ) * pow2 q
    if m = 0 then .zero negative
    else if pow2 1024 ≤ v then .infinity negative
    else .finite (if negative then -v else v)

/-- The binary64 value nearest to a rational: what a decimal literal other
than `-0` denotes, in a source text and for `JSON.parse`. -/
def JSNumber.round (x : ℚ) : JSNumber :=
  if x < 0 then JSNumber.roundAbs true (-x) else JSNumber.roundAbs false x

/-- The operator `+` on two numbers. -/
def JSNumber.add : JSNumber → JSNumber → JSNumber
  | .nan, _ => .nan
  | _, .nan => .nan
  | .infinity a, .infinity b => if a = b then .infinity a else .nan
  | .infinity a, _ => .infinity a
  | _, .infinity b => .infinity b
  | .zero a, .zero b => .zero (a && b)
  | .zero _, .finite y => .finite y
  | .finite x, .zero _ => .finite x
  | .finite x, .finite y => if x + y = 0 then .zero false else JSNumber.round (x + y)

/-- Truthiness of a number: `NaN` and the zeros are falsy. -/
def JSNumber.truthy : JSNumber → Bool
  | .nan => false
  | .infinity _ => true
  | .zero _ => false
  | .finite x => decide (x ≠ 0)

/-! ## JavaScript values -/

/-- A value as `response.json()` can deliver it, together with `undefined`.
The fields of an object are its own properties, each key once. -/
inductive JSValue where
  | undefined
  | null
  | bool (b : Bool)
  | number (n : JSNumber)
  | string (s : List Char)
  | array (xs : List JSValue)
  | object (fields : List (String × JSValue))

/-- What a `throw` carries: an `Error` with its message, or a `TypeError` of
the engine (a property of `null` or `undefined` is read, or an object cannot
be converted to a string); the text of such a message is the engine's. -/
inductive Thrown where
  | error (message : String)
  | typeError

/-- JavaScript truthiness. -/
def JSValue.truthy : JSValue → Bool
  | .undefined => false
  | .null => false
  | .bool b => b
  | .number n => n.truthy
  | .string s => !s.isEmpty
  | .array _ => true
  | .object _ => true

/-- The expression `a || b`. -/
def JSValue.or (a b : JSValue) : JSValue :=
  if a.truthy then a else b

/-- Property read `v.key` for the keys the components use (`SessionId`,
`value`, `DocTotal`), none of which a built-in prototype defines: reading
from `null` or `undefined` throws, an object gives its own property or
`undefined`, every other value gives `undefined`. -/
def JSValue.prop (v : JSValue) (key : String) : Except Thrown JSValue :=
  match v with
  | .undefined => .error .typeError
  | .null => .error .typeError
  | .object fields =>
    match fields.find? (fun f => f.1 == key) with
    | some f => .ok f.2
    | none => .ok .undefined
  | _ => .ok .undefined

/-- An array element inside `join`: `null` and `undefined` give the empty
string, any other element its own conversion. -/
def JSValue.elemOf (x : JSValue) (converted : Except Thrown (List Char)) :
    Except Thrown (List Char) :=
  match x with
  | .undefined => .ok []
  | .null => .ok []
  | _ => converted

mutual
/-- String conversion inside a template literal. An array is joined; an
object parsed from JSON has no callable property, so one with an own
`toString` cannot be converted and a `TypeError` is thrown, and any other is
rendered by `Object.prototype.toString`. The rendering of a number is the
engine's and is a parameter. -/
def JSValue.toStr (numberToString : JSNumber → List Char) :
    JSValue → Except Thrown (List Char)
  | .undefined => .ok "undefined".toList
  | .null => .ok "null".toList
  | .bool true => .ok "true".toList
  | .bool false => .ok "false".toList
  | .number n => .ok (numberToString n)
  | .string s => .ok s
  | .array xs => JSValue.joinStr numberToString xs
  | .object fields =>
    if fields.any (fun f => f.1 == "toString") then .error .typeError
    else .ok "[object Object]".toList
/-- The method `Array.prototype.join` with the separator `,`, converting the
elements from left to right. -/
def JSValue.joinStr (numberToString : JSNumber → List Char) :
    List JSValue → Except Thrown (List Char)
  | [] => .ok []
  | x :: rest =>
    match JSValue.elemOf x (JSValue.toStr numberToString x) with
    | .error e => .error e
    | .ok first =>
      match rest with
      | [] => .ok first
      | _ :: _ =>
        match JSValue.joinStr numberToString rest with
        | .error e => .error e
        | .ok others => .ok (first ++ ',' :: others)
end

/-! ## The network -/

/-- The parts of a `Response` the components read. `json` is what
`await response.json()` gives: a value, or a rejection with the message of
its error. -/
structure Response where
  ok : Bool
  status : Nat
  statusText : String
  setCookie : Option (List Char)
  json : Except String JSValue

/-- How `await fetch(...)` settles: the promise rejects (no connectivity,
blocked request, header refused) or resolves with a response. -/
inductive NetOutcome where
  | rejected (message : String)
  | response (r : Response)

/-! ## SAPInvoicesComponent -/

/-- The four `useState` cells of the component. -/
structure UIState where
  loginStatus : String
  invoices : JSValue
  loading : Bool
  error : String

/-- The initial values passed to `useState`. -/
def UIState.initial : UIState :=
  { loginStatus := "", invoices := .array [], loading := false, error := "" }

/-- The object `login` returns. -/
structure LoginData where
  sessionId : JSValue
  cookies : Cookies

/-- The `try` block of `login` after `await fetch(...)` has settled
(lines 46-63). -/
def loginTry (net : NetOutcome) (ui : UIState) : UIState × Except Thrown LoginData :=
  match net with
  | .rejected message => (ui, .error (.error message))
  | .response response =>
    if !response.ok then
      (ui, .error (.error s!"Login failed: {response.status} {response.statusText}"))
    else
      match response.json with
      | .error message => (ui, .error (.error message))
      | .ok data =>
        let cookies := extractSessionCookies response.setCookie
        let ui1 := { ui with loginStatus := "LOGIN SUCCESS" }
        match data.prop "SessionId" with
        | .error e => (ui1, .error e)
        | .ok sessionId => (ui1, .ok { sessionId := sessionId, cookies := cookies })

/-- The function `login` (lines 29-70) once its request has settled with
`net`: the new state and either the returned object or the message of the
`Error` thrown by the `catch` block. -/
def login (net : NetOutcome) (ui : UIState) : UIState × Except String LoginData :=
  match loginTry net ui with
  | (ui1, .ok loginData) => (ui1, .ok loginData)
  | (ui1, .error _) =>
    ({ ui1 with loginStatus := "LOGIN FAILED", error := "LOGIN FAILED" }, .error "LOGIN FAILED")

/-- The `Cookie` header value built in `fetchInvoices` (lines 77-80), or what
the template literal of line 77 throws. -/
def cookieString (numberToString : JSNumber → List Char) (loginData : LoginData) :
    Except Thrown (List Char) :=
  match loginData.sessionId.toStr numberToString with
  | .error e => .error e
  | .ok sessionIdText =>
    let cookieString := "B1SESSION=".toList ++ sessionIdText
    if truthyStr (loginData.cookies.get "ROUTEID".toList) then
      .ok (cookieString ++ "; ROUTEID=".toList ++
        (loginData.cookies.get "ROUTEID".toList).getD [])
    else .ok cookieString

/-- The URL built in `fetchInvoices` (line 75). -/
def invoicesUrl (customerCode : List Char) : List Char :=
  ("https://service.sboweb.site/b1s/v2/Invoices?$select=DocDate,DocNum,DocTotal" ++
    "&$filter=CardCode eq \x27").toList ++ customerCode ++ "\x27".toList

/-- The arguments of the call `fetch(url, ...)` in `fetchInvoices` that
depend on the login: the URL and the `Cookie` header value. -/
structure Request where
  url : List Char
  cookie : List Char

/-- The `try` block of `fetchInvoices` up to the call of `fetch`
(lines 75-89): the request, or what is thrown before any request is made. -/
def fetchInvoicesRequestTry (numberToString : JSNumber → List Char) (loginData : LoginData)
    (customerCode : List Char) : Except Thrown Request :=
  let url := invoicesUrl customerCode
  match cookieString numberToString loginData with
  | .error e => .error e
  | .ok cookie => .ok { url := url, cookie := cookie }

/-- The function `fetchInvoices` (lines 73-101) up to the call of `fetch`:
the request, or the message of the `Error` thrown by the `catch` block. -/
def fetchInvoicesRequest (numberToString : JSNumber → List Char) (loginData : LoginData)
    (customerCode : List Char) : Except String Request :=
  match fetchInvoicesRequestTry numberToString loginData customerCode with
  | .ok request => .ok request
  | .error _ => .error "LOADING INVOICES FAILED"

/-- The `try` block of `fetchInvoices` after `await fetch(...)` has settled
(lines 91-96). -/
def fetchInvoicesTry (net : NetOutcome) : Except Thrown JSValue :=
  match net with
  | .rejected message => .error (.error message)
  | .response response =>
    if !response.ok then
      .error (.error s!"Failed to fetch invoices: {response.status} {response.statusText}")
    else
      match response.json with
      | .error message => .error (.error message)
      | .ok data =>
        match data.prop "value" with
        | .error e => .error e
        | .ok value => .ok (value.or (.array []))

/-- The function `fetchInvoices` (lines 73-101) once its request has settled
with `net`: the returned value or the message of the `Error` thrown by the
`catch` block. -/
def fetchInvoices (net : NetOutcome) : Except String JSValue :=
  match fetchInvoicesTry net with
  | .ok value => .ok value
  | .error _ => .error "LOADING INVOICES FAILED"

/-! ### The load cycle (lines 119-150)

Each run of the effect starts one cycle of `loadInvoices`. A cycle is
suspended at `await login()`, then waits for its 5000 ms timer, then calls
`fetchInvoices` and, unless that throws before its request, is suspended at
`await fetchInvoices(...)`. The effect returns no cleanup function, so nothing
ever removes a cycle or its timer.

Inside `login` and inside `fetchInvoices` the two awaits (`fetch`, then
`response.json()`) are one event: between them the cycle writes no state and
issues no call, so `NetOutcome` carries the response together with what its
body parses to. When `fetchInvoices` throws before its request, the rejection
reaches the `catch` of the timer callback in the same task, so the timer
event ends the cycle. The 5000 ms of the timer are not measured: a pending
timer may fire at any later point, which includes every order real time
allows. -/

/-- Where a cycle of `loadInvoices` is suspended. -/
inductive Phase where
  | loggingIn
  | waiting (loginData : LoginData)
  | fetching
  | finished

/-- One run of the effect: the `customerCode` its closures captured, and its
phase. -/
structure Cycle where
  customerCode : List Char
  phase : Phase

/-- A call observed from outside, by cycle: the login POST, the
`setTimeout(..., 5000)`, the call `fetchInvoices(loginData, customerCode)`,
and the invoice GET `fetch(url, ...)` with its URL and `Cookie` header. -/
inductive Call where
  | loginPost (cycle : Nat)
  | setTimeout (cycle : Nat)
  | fetchInvoices (cycle : Nat) (loginData : LoginData) (customerCode : List Char)
  | invoicesGet (cycle : Nat) (request : Request)

/-- The component: its state cells, the cycles started so far (a cycle is
named by its position), and the log of calls. -/
structure State where
  ui : UIState
  cycles : List Cycle
  calls : List Call

/-- The mounted component before its first effect. -/
def State.initial : State :=
  { ui := UIState.initial, cycles := [], calls := [] }

/-- What can happen next: the effect runs (mount, or `customerCode` changed),
the login request of a cycle settles, the timer of a cycle fires, the invoice
request of a cycle settles. -/
inductive Event where
  | load (customerCode : List Char)
  | loginSettled (cycle : Nat) (net : NetOutcome)
  | timerFired (cycle : Nat)
  | fetchSettled (cycle : Nat) (net : NetOutcome)

/-- Replaces the phase of cycle `i`. -/
def State.setPhase (s : State) (i : Nat) (customerCode : List Char) (phase : Phase) : State :=
  { s with cycles := s.cycles.set i { customerCode := customerCode, phase := phase } }

/-- One event of `loadInvoices`. An event addressed to a cycle that is not
suspended at the matching point cannot occur and changes nothing. -/
def step (numberToString : JSNumber → List Char) (s : State) : Event → State
  | .load customerCode =>
    { s with
      cycles := s.cycles ++ [{ customerCode := customerCode, phase := .loggingIn }]
      calls := s.calls ++ [.loginPost s.cycles.length] }
  | .loginSettled i net =>
    match s.cycles[i]? with
    | some { customerCode := customerCode, phase := .loggingIn } =>
      match login net s.ui with
      | (ui1, .ok loginData) =>
        { (s.setPhase i customerCode (.waiting loginData)) with
          ui := ui1
          calls := s.calls ++ [.setTimeout i] }
      | (ui1, .error message) =>
        { (s.setPhase i customerCode .finished) with ui := { ui1 with error := message } }
    | _ => s
  | .timerFired i =>
    match s.cycles[i]? with
    | some { customerCode := customerCode, phase := .waiting loginData } =>
      match fetchInvoicesRequest numberToString loginData customerCode with
      | .ok request =>
        { (s.setPhase i customerCode .fetching) with
          ui := { s.ui with loading := true }
          calls := s.calls ++
            [.fetchInvoices i loginData customerCode, .invoicesGet i request] }
      | .error message =>
        { (s.setPhase i customerCode .finished) with
          ui := { s.ui with error := message, loading := false }
          calls := s.calls ++ [.fetchInvoices i loginData customerCode] }
    | _ => s
  | .fetchSettled i net =>
    match s.cycles[i]? with
    | some { customerCode := customerCode, phase := .fetching } =>
      match fetchInvoices net with
      | .ok invoicesData =>
        { (s.setPhase i customerCode .finished) with
          ui := { s.ui with invoices := invoicesData, loading := false } }
      | .error message =>
        { (s.setPhase i customerCode .finished) with
          ui := { s.ui with error := message, loading := false } }
    | _ => s

/-- Runs a sequence of events. -/
def run (numberToString : JSNumber → List Char) (s : State) (events : List Event) : State :=
  events.foldl (step numberToString) s

/-- The cycle an event is addressed to; a `load` starts a new one. -/
def Event.cycle? : Event → Option Nat
  | .load _ => none
  | .loginSettled i _ => some i
  | .timerFired i => some i
  | .fetchSettled i _ => some i

/-- The cycle a call belongs to. -/
def Call.cycle : Call → Nat
  | .loginPost i => i
  | .setTimeout i => i
  | .fetchInvoices i _ _ => i
  | .invoicesGet i _ => i

/-- Whether a call is a login POST. -/
def Call.isLoginPost : Call → Bool
  | .loginPost _ => true
  | _ => false

/-- Whether a call is the invoice GET of cycle `i`. -/
def Call.isGetOf (i : Nat) : Call → Bool
  | .invoicesGet j _ => j == i
  | _ => false

/-- Whether a call is the `setTimeout` of cycle `i`. -/
def Call.isTimerOf (i : Nat) : Call → Bool
  | .setTimeout j => j == i
  | _ => false

/-- Whether a call is a call of `fetchInvoices` by cycle `i`. -/
def Call.isFetchInvoicesOf (i : Nat) : Call → Bool
  | .fetchInvoices j _ _ => j == i
  | _ => false

/-- The number of invoice GET requests cycle `i` has issued. -/
def State.fetchCallCount (s : State) (i : Nat) : Nat :=
  s.calls.countP (Call.isGetOf i)

/-- The number of timers cycle `i` has scheduled. -/
def State.timerCount (s : State) (i : Nat) : Nat :=
  s.calls.countP (Call.isTimerOf i)

/-- The number of times cycle `i` has called `fetchInvoices`. -/
def State.fetchInvoicesCount (s : State) (i : Nat) : Nat :=
  s.calls.countP (Call.isFetchInvoicesOf i)

/-- The causes for which `login` fails: the request is rejected, the status
is not ok, the body does not parse, or the parsed body is `null`. -/
def loginFails : NetOutcome → Bool
  | .rejected _ => true
  | .response r =>
    !r.ok ||
      match r.json with
      | .error _ => true
      | .ok .null => true
      | .ok .undefined => true
      | .ok _ => false

/-- The causes for which `fetchInvoices` fails once its request is made: the
request is rejected, the status is not ok, the body does not parse, or the
parsed body is `null`. -/
def fetchFails : NetOutcome → Bool
  | .rejected _ => true
  | .response r =>
    !r.ok ||
      match r.json with
      | .error _ => true
      | .ok .null => true
      | .ok .undefined => true
      | .ok _ => false

mutual
/-- The cause for which `fetchInvoices` fails before its request: the session
identifier cannot be converted to a string, being an object with an own
`toString` property or an array that holds such a value. -/
def JSValue.unprintable : JSValue → Bool
  | .object fields => fields.any (fun f => f.1 == "toString")
  | .array xs => JSValue.anyUnprintable xs
  | _ => false
/-- Whether a list holds a value that cannot be converted to a string. -/
def JSValue.anyUnprintable : List JSValue → Bool
  | [] => false
  | x :: rest => JSValue.unprintable x || JSValue.anyUnprintable rest
end

/-- A conversion to a string agrees with the cause predicate: it ends in the
`TypeError` when `unprintable` holds and in a string otherwise. -/
def Converts (unprintable : Bool) (result : Except Thrown (List Char)) : Prop :=
  (unprintable = true ∧ result = .error .typeError) ∨
    (unprintable = false ∧ ∃ text, result = .ok text)

/-! ## InvoicesList (Components.jsx) -/

namespace Components

/-- The three `useState` cells of `InvoicesList`; `error` starts as `null`. -/
structure ListState where
  invoices : JSValue
  loading : Bool
  error : Option String

/-- The initial values passed to `useState`. -/
def ListState.initial : ListState :=
  { invoices := .array [], loading := true, error := none }

/-- The property `err.message`; the text of an engine `TypeError` is a
parameter. -/
def message (typeErrorMessage : String) : Thrown → String
  | .error m => m
  | .typeError => typeErrorMessage

/-- The `try` block of `fetchInvoices` after `await fetch(...)` has settled
(lines 39-44): the value passed to `setInvoices`. -/
def fetchInvoicesTry (net : NetOutcome) : Except Thrown JSValue :=
  match net with
  | .rejected m => .error (.error m)
  | .response response =>
    if !response.ok then .error (.error "Failed to fetch invoices")
    else
      match response.json with
      | .error m => .error (.error m)
      | .ok data =>
        match data.prop "value" with
        | .error e => .error e
        | .ok value => .ok (value.or (.array []))

/-- The function `fetchInvoices` of `InvoicesList` (lines 24-50), from the
state it is called in to the state after `finally`. -/
def fetchInvoices (typeErrorMessage : String) (net : NetOutcome) (st : ListState) : ListState :=
  let st1 := { st with loading := true, error := none }
  let st2 :=
    match fetchInvoicesTry net with
    | .ok value => { st1 with invoices := value }
    | .error err =>
      { st1 with error := some ("Failed to load invoice data: " ++ message typeErrorMessage err) }
  { st2 with loading := false }

/-- The operator `+` on two numbers, binary64 addition. Other operands
(string concatenation, coercions) are outside the model: `none`. -/
def jsAdd : JSValue → JSValue → Option JSValue
  | .number a, .number b => some (.number (a.add b))
  | _, _ => none

/-- The reducer `(sum, inv) => sum + (inv.DocTotal || 0)` (line 227); `none`
when reading `inv.DocTotal` throws or the addition is outside the model. -/
def addDocTotal (sum inv : JSValue) : Option JSValue :=
  match inv.prop "DocTotal" with
  | .error _ => none
  | .ok docTotal => jsAdd sum (docTotal.or (.number (.zero false)))

/-- The method `Array.prototype.reduce` with the reducer above, from an
accumulator. -/
def reduceFrom (sum : JSValue) : List JSValue → Option JSValue
  | [] => some sum
  | inv :: rest =>
    match addDocTotal sum inv with
    | none => none
    | some sum1 => reduceFrom sum1 rest

/-- The summary total `invoices.reduce(..., 0)` (line 227). -/
def summaryTotal (invoices : List JSValue) : Option JSValue :=
  reduceFrom (.number (.zero false)) invoices

/-- The `DocTotal` of a document as the number that enters the sum: the
`DocTotal` itself when it is a non-zero number, and 0 when it is absent
(`undefined` or `null`), a zero of either sign, or `NaN`. -/
def docTotalOrZero (inv : JSValue) : JSNumber :=
  match inv.prop "DocTotal" with
  | .ok (.number (.infinity negative)) => .infinity negative
  | .ok (.number (.finite x)) => if x = 0 then .zero false else .finite x
  | _ => .zero false

/-- A document whose `DocTotal` is a number or is absent. -/
def hasNumericOrAbsentTotal (inv : JSValue) : Prop :=
  (∃ n, inv.prop "DocTotal" = .ok (.number n)) ∨
    inv.prop "DocTotal" = .ok .undefined ∨ inv.prop "DocTotal" = .ok .null

/-- The sum of numbers from left to right, each addition rounded, starting
from 0. -/
def sumLeftToRight (totals : List JSNumber) : JSNumber :=
  totals.foldl JSNumber.add (.zero false)

end Components

/-! ### Invariants of the load cycle -/

/-- Cycle `i` has made no call but its login POST: no timer, no call of
`fetchInvoices`, no invoice GET. -/
def State.quiet (s : State) (i : Nat) : Prop :=
  ∀ c ∈ s.calls, c.cycle = i → c.isLoginPost = true

/-- Cycle `i` has ended without a timer and without an invoice GET. -/
def State.endedQuiet (s : State) (i : Nat) (customerCode : List Char) : Prop :=
  s.cycles[i]? = some { customerCode := customerCode, phase := .finished } ∧ s.quiet i

/-- A cycle that has not started or is still logging in is quiet. -/
def State.fresh (s : State) : Prop :=
  ∀ i, (s.cycles[i]? = none ∨
      ∃ customerCode, s.cycles[i]? = some { customerCode := customerCode, phase := .loggingIn }) →
    s.quiet i

/-! ## Sample inputs -/

/-- A stand-in for the engine's rendering of numbers; no sample renders
one. -/
def sampleNumberToString : JSNumber → List Char :=
  fun _ => "0".toList

/-- A login response that is accepted: status 200 and a body with a
`SessionId`. -/
def sampleLoginOk : NetOutcome :=
  .response
    { ok := true, status := 200, statusText := "OK",
      setCookie := some "B1SESSION=tok; Path=/, ROUTEID=.node2; Path=/".toList,
      json := .ok (.object [("SessionId", .string "tok".toList)]) }

/-- A response that is rejected by the backend: status 401. -/
def sampleUnauthorized : NetOutcome :=
  .response
    { ok := false, status := 401, statusText := "Unauthorized", setCookie := none,
      json := .ok (.object []) }

/-- An invoice with the three selected fields. -/
def sampleInvoice (docNum : ℚ) (docTotal : ℚ) : JSValue :=
  .object [("DocDate", .string "2024-01-31".toList), ("DocNum", .number (.finite docNum)),
    ("DocTotal", .number (.finite docTotal))]

/-- An ok invoice response whose body has the given `value` array. -/
def sampleInvoicesOk (xs : List JSValue) : Response :=
  { ok := true, status := 200, statusText := "OK", setCookie := none,
    json := .ok (.object [("value", .array xs)]) }

/-- An ok invoice response whose body has no `value` property. -/
def sampleInvoicesNoValue : Response :=
  { ok := true, status := 200, statusText := "OK", setCookie := none,
    json := .ok (.object [("odata.metadata", .string "Invoices".toList)]) }

/-- The component after its first effect has run for customer `C20000`. -/
def sampleMounted : State :=
  run sampleNumberToString State.initial [.load "C20000".toList]

/-- A login response with status 200 whose body has no `SessionId`. -/
def sampleLoginNoSession : NetOutcome :=
  .response
    { ok := true, status := 200, statusText := "OK", setCookie := none,
      json := .ok (.object [("Version", .string "1000190".toList)]) }

/-- A login response with status 200 whose `SessionId` is the empty
string. -/
def sampleLoginEmptySession : Response :=
  { ok := true, status := 200, statusText := "OK", setCookie := none,
    json := .ok (.object [("SessionId", .string [])]) }

/-- A login response with status 200 whose routing cookie has a blank
value. -/
def sampleLoginBlankRoute : NetOutcome :=
  .response
    { ok := true, status := 200, statusText := "OK",
      setCookie := some "ROUTEID= ; Path=/".toList,
      json := .ok (.object [("SessionId", .string "tok".toList)]) }

/-- A login response with status 200 whose `SessionId` is an object with an
own `toString` property, which no template literal can convert. -/
def sampleLoginUnprintable : NetOutcome :=
  .response
    { ok := true, status := 200, statusText := "OK", setCookie := none,
      json := .ok (.object [("SessionId", .object [("toString", .number (.finite 1))])]) }

/-- The customer code changes from `C20000` to `C30000` while the timer of
the first cycle is pending; both timers fire, and the invoice request of the
second cycle settles before that of the first. -/
def sampleSuperseded : List Event :=
  [.load "C20000".toList, .loginSettled 0 sampleLoginOk,
   .load "C30000".toList, .loginSettled 1 sampleLoginOk,
   .timerFired 0, .timerFired 1,
   .fetchSettled 1 (.response (sampleInvoicesOk [sampleInvoice 31 9])),
   .fetchSettled 0 (.response (sampleInvoicesOk [sampleInvoice 21 5]))]

/-- The object `login` returns for `sampleLoginOk`. -/
def sampleLoginData : LoginData :=
  { sessionId := .string "tok".toList,
    cookies := [("B1SESSION".toList, "tok".toList), ("ROUTEID".toList, ".node2".toList)] }

/-- The request `fetchInvoices` makes with `sampleLoginData` for a customer. -/
def sampleRequest (customerCode : List Char) : Request :=
  { url := invoicesUrl customerCode, cookie := "B1SESSION=tok; ROUTEID=.node2".toList }

/-- The totals 0.1 and 0.2 as JSON delivers them. -/
def sampleTenthAndFifth : List JSValue :=
  [.object [("DocTotal", .number (JSNumber.round (1 / 10)))],
   .object [("DocTotal", .number (JSNumber.round (2 / 10)))]]

/-! ## Lemmas -/

/-! ### Binary64 rounding -/

theorem log2Fuel_spec (fuel n : Nat) (hpos : 0 < n) (hfuel : n ≤ fuel) :
    2 ^ log2Fuel fuel n ≤ n ∧ n < 2 ^ (log2Fuel fuel n + 1) := by
  induction fuel generalizing n with
  | zero => omega
  | succ fuel ih =>
    by_cases h2 : n < 2
    · have h1 : n = 1 := by omega
      simp [log2Fuel, h1]
    · have hhalf := ih (n / 2) (by omega) (by omega)
      simp only [log2Fuel, h2, if_false]
      obtain ⟨ha, hb⟩ := hhalf
      constructor
      · rw [pow_succ]
        omega
      · rw [pow_succ]
        omega

/-- For positive `n`, `log2 n` is the position of the leading bit. -/
theorem log2_spec (n : Nat) (hpos : 0 < n) : 2 ^ log2 n ≤ n ∧ n < 2 ^ (log2 n + 1) :=
  log2Fuel_spec n n hpos le_rfl

theorem pow2_eq_zpow (e : Int) : pow2 e = (2 : ℚ) ^ e := by
  unfold pow2
  split
  next h =>
    obtain ⟨n, rfl⟩ := Int.eq_ofNat_of_zero_le h
    simp
  next h =>
    have h' : 0 ≤ -e := by omega
    obtain ⟨n, hn⟩ := Int.eq_ofNat_of_zero_le h'
    have he : e = -(n : Int) := by omega
    subst he
    simp

/-- For positive `x`, `floorLog2 x` is the exponent of the power of two at or
below `x`. -/
theorem floorLog2_spec (x : ℚ) (hpos : 0 < x) :
    pow2 (floorLog2 x) ≤ x ∧ x < pow2 (floorLog2 x + 1) := by
  have hnum : 0 < x.num := Rat.num_pos.mpr hpos
  have hden : 0 < x.den := x.den_pos
  have hn : 0 < x.num.natAbs := Int.natAbs_pos.mpr (ne_of_gt hnum)
  obtain ⟨ha1, ha2⟩ := log2_spec x.num.natAbs hn
  obtain ⟨hb1, hb2⟩ := log2_spec x.den hden
  have hx : x = (x.num.natAbs : ℚ) / (x.den : ℚ) := by
    have h1 : ((x.num.natAbs : ℕ) : ℚ) = (x.num : ℚ) := by
      rw [Nat.cast_natAbs, abs_of_pos hnum]
    rw [h1]
    exact (Rat.num_div_den x).symm
  have hdq : (0 : ℚ) < (x.den : ℚ) := by exact_mod_cast hden
  set a := log2 x.num.natAbs with ha
  set b := log2 x.den with hb
  have A1 : ((2 : ℚ) ^ a) ≤ (x.num.natAbs : ℚ) := by exact_mod_cast ha1
  have A2 : (x.num.natAbs : ℚ) < (2 : ℚ) ^ (a + 1) := by exact_mod_cast ha2
  have B1 : ((2 : ℚ) ^ b) ≤ (x.den : ℚ) := by exact_mod_cast hb1
  have B2 : (x.den : ℚ) < (2 : ℚ) ^ (b + 1) := by exact_mod_cast hb2
  have hlow : (2 : ℚ) ^ ((a : ℤ) - (b : ℤ) - 1) ≤ x := by
    rw [hx, le_div_iff₀ hdq]
    have : (2 : ℚ) ^ ((a : ℤ) - (b : ℤ) - 1) * (2 : ℚ) ^ (b + 1) = (2 : ℚ) ^ a := by
      rw [← zpow_natCast (2 : ℚ) (b + 1), ← zpow_add₀ (by norm_num : (2 : ℚ) ≠ 0),
        ← zpow_natCast (2 : ℚ) a]
      congr 1
      push_cast
      ring
    calc (2 : ℚ) ^ ((a : ℤ) - (b : ℤ) - 1) * (x.den : ℚ)
        ≤ (2 : ℚ) ^ ((a : ℤ) - (b : ℤ) - 1) * (2 : ℚ) ^ (b + 1) := by
          apply mul_le_mul_of_nonneg_left (le_of_lt B2)
          positivity
      _ = (2 : ℚ) ^ a := this
      _ ≤ _ := A1
  have hhigh : x < (2 : ℚ) ^ ((a : ℤ) - (b : ℤ) + 1) := by
    rw [hx, div_lt_iff₀ hdq]
    have : (2 : ℚ) ^ ((a : ℤ) - (b : ℤ) + 1) * (2 : ℚ) ^ b = (2 : ℚ) ^ (a + 1) := by
      rw [← zpow_natCast (2 : ℚ) b, ← zpow_add₀ (by norm_num : (2 : ℚ) ≠ 0),
        ← zpow_natCast (2 : ℚ) (a + 1)]
      congr 1
      push_cast
      ring
    calc (x.num.natAbs : ℚ) < (2 : ℚ) ^ (a + 1) := A2
      _ = (2 : ℚ) ^ ((a : ℤ) - (b : ℤ) + 1) * (2 : ℚ) ^ b := this.symm
      _ ≤ (2 : ℚ) ^ ((a : ℤ) - (b : ℤ) + 1) * (x.den : ℚ) := by
          apply mul_le_mul_of_nonneg_left B1
          positivity
  unfold floorLog2
  simp only [← ha, ← hb]
  split
  next hlt =>
    rw [pow2_eq_zpow] at hlt
    rw [pow2_eq_zpow, pow2_eq_zpow]
    refine ⟨hlow, ?_⟩
    have : (a : ℤ) - (b : ℤ) - 1 + 1 = (a : ℤ) - (b : ℤ) := by ring
    rw [this]
    exact hlt
  next hge =>
    rw [pow2_eq_zpow] at hge
    rw [pow2_eq_zpow, pow2_eq_zpow]
    exact ⟨not_lt.mp hge, hhigh⟩

theorem natFloor_spec (q : ℚ) (h : 0 ≤ q) :
    ((q.num.natAbs / q.den : ℕ) : ℚ) ≤ q ∧ q < ((q.num.natAbs / q.den : ℕ) : ℚ) + 1 := by
  have hf : ((q.num.natAbs / q.den : ℕ) : ℤ) = ⌊q⌋ := by
    rw [Rat.floor_def]
    have : 0 ≤ q.num := Rat.num_nonneg.mpr h
    rw [Int.natCast_div, Int.natAbs_of_nonneg this]
  have h1 : ((q.num.natAbs / q.den : ℕ) : ℚ) = ((⌊q⌋ : ℤ) : ℚ) := by
    rw [← hf]
    exact (Int.cast_natCast _).symm
  rw [h1]
  exact ⟨Int.floor_le q, Int.lt_floor_add_one q⟩

theorem pow2_add (a b : Int) : pow2 (a + b) = pow2 a * pow2 b := by
  rw [pow2_eq_zpow, pow2_eq_zpow, pow2_eq_zpow, zpow_add₀ (by norm_num : (2 : ℚ) ≠ 0)]

theorem pow2_mono (a b : Int) (h : a ≤ b) : pow2 a ≤ pow2 b := by
  rw [pow2_eq_zpow, pow2_eq_zpow]
  exact zpow_le_zpow_right₀ (by norm_num) h

/-- A finite result of rounding is a whole multiple `m * 2 ^ q` of the
spacing, with `m` at most `2 ^ 53` and `q` at least -1074, and lies within
half a spacing of the rounded value. -/
theorem roundAbs_nearest (negative : Bool) (x v : ℚ) (hpos : 0 < x)
    (h : JSNumber.roundAbs negative x = .finite v) :
    ∃ m : Nat, m ≤ 2 ^ 53 ∧
      |v| = (m : ℚ) * pow2 (max (floorLog2 x - 52) (-1074)) ∧
      |(|v| - x)| ≤ pow2 (max (floorLog2 x - 52) (-1074)) / 2 := by
  have hq : (0 : ℚ) < pow2 (max (floorLog2 x - 52) (-1074)) := by
    rw [pow2_eq_zpow]
    positivity
  set q := max (floorLog2 x - 52) (-1074) with hqdef
  have hs : 0 ≤ x / pow2 q := le_of_lt (div_pos hpos hq)
  obtain ⟨f1, f2⟩ := natFloor_spec (x / pow2 q) hs
  set m0 := (x / pow2 q).num.natAbs / (x / pow2 q).den with hm0
  have hscaled : x / pow2 q < 2 ^ 53 := by
    rw [div_lt_iff₀ hq]
    have h1 := (floorLog2_spec x hpos).2
    have h2 : pow2 (floorLog2 x + 1) ≤ pow2 (53 + q) :=
      pow2_mono _ _ (by have := le_max_left (floorLog2 x - 52) (-1074); omega)
    have h3 : pow2 (53 + q) = 2 ^ 53 * pow2 q := by
      rw [pow2_add]
      congr 1
    linarith
  have hm0lt : m0 < 2 ^ 53 := by
    have : (m0 : ℚ) < ((2 ^ 53 : ℕ) : ℚ) := by
      push_cast
      linarith
    exact_mod_cast this
  have key : ∀ m : Nat,
      m = (if x / pow2 q - (m0 : ℚ) < 1 / 2 then m0
        else if 1 / 2 < x / pow2 q - (m0 : ℚ) then m0 + 1
        else if m0 % 2 = 0 then m0 else m0 + 1) →
      |(m : ℚ) - x / pow2 q| ≤ 1 / 2 ∧ m ≤ 2 ^ 53 := by
    intro m hm
    split_ifs at hm with c1 c2 c3
    · rw [hm, abs_le]; exact ⟨by constructor <;> linarith, by omega⟩
    · rw [hm, abs_le]; push_cast; exact ⟨by constructor <;> linarith, by omega⟩
    · rw [hm, abs_le]; exact ⟨by constructor <;> linarith, by omega⟩
    · rw [hm, abs_le]; push_cast; exact ⟨by constructor <;> linarith, by omega⟩
  unfold JSNumber.roundAbs at h
  rw [if_neg (ne_of_gt hpos)] at h
  simp only [← hqdef, ← hm0] at h
  generalize hm : (if x / pow2 q - (m0 : ℚ) < 1 / 2 then m0
        else if 1 / 2 < x / pow2 q - (m0 : ℚ) then m0 + 1
        else if m0 % 2 = 0 then m0 else m0 + 1) = m at h
  obtain ⟨hk, hle⟩ := key m hm.symm
  have hmq : (0 : ℚ) ≤ (m : ℚ) * pow2 q := by positivity
  have e : (m : ℚ) * pow2 q - x = ((m : ℚ) - x / pow2 q) * pow2 q := by
    field_simp
  have hbound : |(m : ℚ) * pow2 q - x| ≤ pow2 q / 2 := by
    rw [e, abs_mul, abs_of_pos hq]
    calc _ ≤ 1 / 2 * pow2 q := mul_le_mul_of_nonneg_right hk (le_of_lt hq)
      _ = pow2 q / 2 := by ring
  split_ifs at h with c1 c2 c3
  · injection h with h
    refine ⟨m, hle, ?_, ?_⟩
    · rw [← h, abs_neg, abs_of_nonneg hmq]
    · rw [← h, abs_neg, abs_of_nonneg hmq]
      exact hbound
  · injection h with h
    refine ⟨m, hle, ?_, ?_⟩
    · rw [← h, abs_of_nonneg hmq]
    · rw [← h, abs_of_nonneg hmq]
      exact hbound

/-! ### Cookie parsing -/

theorem split_head (sep : Char) (s : List Char) :
    ∃ piece pieces, split sep s = piece :: pieces ∧
      (piece = [] ∨ ∃ c cs rest, s = c :: cs ∧ piece = c :: rest) := by
  cases s with
  | nil => exact ⟨[], [], rfl, Or.inl rfl⟩
  | cons c cs =>
    by_cases hc : c = sep
    · exact ⟨[], split sep cs, by simp [split, hc], Or.inl rfl⟩
    · cases hs : split sep cs with
      | nil => exact ⟨[c], [], by simp [split, hc, hs], Or.inr ⟨c, cs, [], rfl, rfl⟩⟩
      | cons piece pieces =>
        exact ⟨c :: piece, pieces, by simp [split, hc, hs], Or.inr ⟨c, cs, piece, rfl, rfl⟩⟩

theorem dropWhile_append_singleton (p : Char → Bool) (l : List Char) (c : Char)
    (hc : p c = false) : (l ++ [c]).dropWhile p = l.dropWhile p ++ [c] := by
  induction l with
  | nil => simp [List.dropWhile, hc]
  | cons a l ih =>
    by_cases ha : p a = true
    · simp [List.dropWhile, ha, ih]
    · simp [List.dropWhile, ha]

theorem trim_head (s : List Char) :
    trim s = [] ∨ ∃ c rest, trim s = c :: rest ∧ isTrimChar c = false := by
  unfold trim
  cases h : s.dropWhile isTrimChar with
  | nil => exact Or.inl rfl
  | cons c t =>
    have hc : isTrimChar c = false := by
      have := List.head_dropWhile_not isTrimChar s (by simp [h])
      simpa [h] using this
    right
    refine ⟨c, (t.reverse.dropWhile isTrimChar).reverse, ?_, hc⟩
    rw [List.reverse_cons, dropWhile_append_singleton _ _ _ hc]
    simp

theorem trim_cons_of_not_trimChar (c : Char) (cs : List Char) (hc : isTrimChar c = false) :
    ∃ rest, trim (c :: cs) = c :: rest := by
  unfold trim
  refine ⟨(cs.reverse.dropWhile isTrimChar).reverse, ?_⟩
  have h1 : (c :: cs).dropWhile isTrimChar = c :: cs := by simp [List.dropWhile, hc]
  rw [h1, List.reverse_cons, dropWhile_append_singleton _ _ _ hc]
  simp

/-- What the callback does with one entry: nothing, or one assignment whose
name is not empty. -/
theorem addCookie_cases (cookies : Cookies) (cookieString : List Char) :
    addCookie cookies cookieString = cookies ∨
      ∃ name value, name ≠ [] ∧ addCookie cookies cookieString = Cookies.assign cookies name value := by
  unfold addCookie
  obtain ⟨nv, nvs, hnv, hnv2⟩ := split_head ';' (trim cookieString)
  obtain ⟨nm, parts, hnm, hnm2⟩ := split_head '=' nv
  simp only [hnv, List.headD_cons, hnm, List.head?_cons, List.tail_cons, Option.getD_some]
  by_cases hg : (truthyStr (some nm) && truthyStr parts.head?) = true
  · right
    simp only [hg, if_true]
    refine ⟨_, _, ?_, rfl⟩
    have hnm0 : nm ≠ [] := by
      intro h0
      simp [h0, truthyStr] at hg
    rcases hnm2 with h | ⟨c, cs, rest, hnvc, hnmc⟩
    · exact absurd h hnm0
    · rcases hnv2 with h | ⟨c2, cs2, rest2, htrim, hnvc2⟩
      · rw [h] at hnvc; cases hnvc
      · rcases trim_head cookieString with ht | ⟨c3, rest3, ht, hc3⟩
        · rw [ht] at htrim; cases htrim
        · rw [ht] at htrim
          have e1 : c3 = c2 := by injection htrim
          rw [hnvc2] at hnvc
          have e2 : c2 = c := by injection hnvc
          obtain ⟨r, hr⟩ := trim_cons_of_not_trimChar c rest (by rw [← e2, ← e1]; exact hc3)
          rw [hnmc, hr]
          exact List.cons_ne_nil _ _
  · left
    simp [hg]

theorem Cookies.put_length_le (cookies : Cookies) (name value : List Char) :
    (Cookies.put cookies name value).length ≤ cookies.length + 1 := by
  induction cookies with
  | nil => simp [Cookies.put]
  | cons p rest ih =>
    obtain ⟨k, v⟩ := p
    by_cases hk : k = name
    · simp [Cookies.put, hk]
    · simp [Cookies.put, hk]
      omega

theorem Cookies.put_names (cookies : Cookies) (name value : List Char) (p : List Char × List Char)
    (hp : p ∈ Cookies.put cookies name value) : p.1 = name ∨ ∃ q ∈ cookies, q.1 = p.1 := by
  induction cookies with
  | nil =>
    simp [Cookies.put] at hp
    exact Or.inl (by rw [hp])
  | cons q rest ih =>
    obtain ⟨k, v⟩ := q
    by_cases hk : k = name
    · simp only [Cookies.put, hk, if_true, List.mem_cons] at hp
      rcases hp with hp | hp
      · exact Or.inl (by rw [hp])
      · exact Or.inr ⟨p, List.mem_cons_of_mem _ hp, rfl⟩
    · simp only [Cookies.put, hk, if_false, List.mem_cons] at hp
      rcases hp with hp | hp
      · exact Or.inr ⟨(k, v), List.mem_cons_self _ _, by rw [hp]⟩
      · rcases ih hp with h | ⟨q, hq, hq2⟩
        · exact Or.inl h
        · exact Or.inr ⟨q, List.mem_cons_of_mem _ hq, hq2⟩

/-- One entry adds at most one pair. -/
theorem addCookie_length_le (cookies : Cookies) (cookieString : List Char) :
    (addCookie cookies cookieString).length ≤ cookies.length + 1 := by
  rcases addCookie_cases cookies cookieString with h | ⟨name, value, -, h⟩
  · rw [h]; omega
  · rw [h]
    unfold Cookies.assign
    split
    · omega
    · exact Cookies.put_length_le cookies name value

theorem addCookie_names (cookies : Cookies) (cookieString : List Char)
    (h : ∀ p ∈ cookies, p.1 ≠ []) : ∀ p ∈ addCookie cookies cookieString, p.1 ≠ [] := by
  rcases addCookie_cases cookies cookieString with h1 | ⟨name, value, hname, h1⟩
  · rw [h1]; exact h
  · rw [h1]
    unfold Cookies.assign
    split
    · exact h
    · intro p hp
      rcases Cookies.put_names cookies name value p hp with h2 | ⟨q, hq, hq2⟩
      · rw [h2]; exact hname
      · rw [← hq2]; exact h q hq

theorem foldl_addCookie_names (entries : List (List Char)) (cookies : Cookies)
    (h : ∀ p ∈ cookies, p.1 ≠ []) : ∀ p ∈ entries.foldl addCookie cookies, p.1 ≠ [] := by
  induction entries generalizing cookies with
  | nil => exact h
  | cons e rest ih => exact ih _ (addCookie_names cookies e h)

theorem foldl_addCookie_length_le (entries : List (List Char)) (cookies : Cookies) :
    (entries.foldl addCookie cookies).length ≤ cookies.length + entries.length := by
  induction entries generalizing cookies with
  | nil => simp
  | cons e rest ih =>
    have h1 := ih (addCookie cookies e)
    have h2 := addCookie_length_le cookies e
    simp only [List.foldl_cons, List.length_cons]
    omega

/-- The part of C10 that holds: for every header, each pair of the returned
map has a non-empty name, and the map has at most as many pairs as the header
has comma-separated entries. -/
theorem extractSessionCookies_names_nonempty (setCookieHeader : Option (List Char)) :
    (∀ p ∈ extractSessionCookies setCookieHeader, p.1 ≠ []) ∧
    (extractSessionCookies setCookieHeader).length ≤
      (split ',' (setCookieHeader.getD [])).length := by
  unfold extractSessionCookies
  split
  · refine ⟨foldl_addCookie_names _ [] (by simp), ?_⟩
    have := foldl_addCookie_length_le (split ',' (setCookieHeader.getD [])) []
    simpa using this
  · simp

/-! ### `login` and `fetchInvoices` -/

theorem login_of_fails (net : NetOutcome) (ui : UIState) (h : loginFails net = true) :
    login net ui =
      ({ ui with loginStatus := "LOGIN FAILED", error := "LOGIN FAILED" }, .error "LOGIN FAILED") := by
  cases net with
  | rejected m => rfl
  | response r =>
    obtain ⟨ok, status, statusText, setCookie, json⟩ := r
    cases ok with
    | false => rfl
    | true =>
      cases json with
      | error m => rfl
      | ok data =>
        cases data <;> first | rfl | simp [loginFails] at h

theorem login_of_not_fails (net : NetOutcome) (ui : UIState) (h : loginFails net = false) :
    ∃ r data sessionId, net = .response r ∧ r.ok = true ∧ r.json = .ok data ∧
      data.prop "SessionId" = .ok sessionId ∧
      login net ui =
        ({ ui with loginStatus := "LOGIN SUCCESS" },
          .ok { sessionId := sessionId, cookies := extractSessionCookies r.setCookie }) := by
  cases net with
  | rejected m => simp [loginFails] at h
  | response r =>
    obtain ⟨ok, status, statusText, setCookie, json⟩ := r
    cases ok with
    | false => simp [loginFails] at h
    | true =>
      cases json with
      | error m => simp [loginFails] at h
      | ok data =>
        cases data with
        | undefined => simp [loginFails] at h
        | null => simp [loginFails] at h
        | object fields =>
          cases hf : fields.find? (fun f => f.1 == "SessionId") with
          | none =>
            exact ⟨_, _, .undefined, rfl, rfl, rfl, by simp [JSValue.prop, hf],
              by simp [login, loginTry, JSValue.prop, hf]⟩
          | some f =>
            exact ⟨_, _, f.2, rfl, rfl, rfl, by simp [JSValue.prop, hf],
              by simp [login, loginTry, JSValue.prop, hf]⟩
        | _ => exact ⟨_, _, _, rfl, rfl, rfl, rfl, rfl⟩

theorem fetchInvoices_of_fails (net : NetOutcome) (h : fetchFails net = true) :
    fetchInvoices net = .error "LOADING INVOICES FAILED" := by
  cases net with
  | rejected m => rfl
  | response r =>
    obtain ⟨ok, status, statusText, setCookie, json⟩ := r
    cases ok with
    | false => rfl
    | true =>
      cases json with
      | error m => rfl
      | ok data =>
        cases data <;> first | rfl | simp [fetchFails] at h

theorem fetchInvoices_of_value (r : Response) (data value : JSValue) (hok : r.ok = true)
    (hjson : r.json = .ok data) (hvalue : data.prop "value" = .ok value) :
    fetchInvoices (.response r) = .ok (value.or (.array [])) := by
  simp [fetchInvoices, fetchInvoicesTry, hok, hjson, hvalue]

theorem Components.fetchInvoicesTry_of_value (r : Response) (data value : JSValue)
    (hok : r.ok = true) (hjson : r.json = .ok data) (hvalue : data.prop "value" = .ok value) :
    Components.fetchInvoicesTry (.response r) = .ok (value.or (.array [])) := by
  simp [Components.fetchInvoicesTry, hok, hjson, hvalue]

theorem fetchInvoices_of_not_fails (net : NetOutcome) (h : fetchFails net = false) :
    ∃ value, fetchInvoices net = .ok value := by
  cases net with
  | rejected m => simp [fetchFails] at h
  | response r =>
    obtain ⟨ok, status, statusText, setCookie, json⟩ := r
    cases ok with
    | false => simp [fetchFails] at h
    | true =>
      cases json with
      | error m => simp [fetchFails] at h
      | ok data =>
        cases data with
        | undefined => simp [fetchFails] at h
        | null => simp [fetchFails] at h
        | object fields =>
          cases hf : fields.find? (fun f => f.1 == "value") with
          | none => exact ⟨_, fetchInvoices_of_value _ _ .undefined rfl rfl (by simp [JSValue.prop, hf])⟩
          | some f => exact ⟨_, fetchInvoices_of_value _ _ f.2 rfl rfl (by simp [JSValue.prop, hf])⟩
        | _ => exact ⟨_, rfl⟩

/-! ### Failure before the request -/

theorem elemOf_converts (x : JSValue) (result : Except Thrown (List Char))
    (h : Converts x.unprintable result) : Converts x.unprintable (JSValue.elemOf x result) := by
  cases x with
  | undefined => exact Or.inr ⟨by simp [JSValue.unprintable], [], by simp [JSValue.elemOf]⟩
  | null => exact Or.inr ⟨by simp [JSValue.unprintable], [], by simp [JSValue.elemOf]⟩
  | bool b => exact h
  | number n => exact h
  | string t => exact h
  | array xs => exact h
  | object fields => exact h

theorem joinStr_converts_cons (nts : JSNumber → List Char) (x : JSValue) (rest : List JSValue)
    (hx : Converts x.unprintable (x.toStr nts))
    (hrest : Converts (JSValue.anyUnprintable rest) (JSValue.joinStr nts rest)) :
    Converts (JSValue.anyUnprintable (x :: rest)) (JSValue.joinStr nts (x :: rest)) := by
  have he := elemOf_converts x _ hx
  rw [JSValue.joinStr, JSValue.anyUnprintable]
  rcases he with ⟨hu, hr⟩ | ⟨hu, t, hr⟩
  · exact Or.inl ⟨by simp [hu], by rw [hr]⟩
  · cases rest with
    | nil => exact Or.inr ⟨by simp [hu, JSValue.anyUnprintable], _, by rw [hr]⟩
    | cons y more =>
      rcases hrest with ⟨hu2, hr2⟩ | ⟨hu2, t2, hr2⟩
      · exact Or.inl ⟨by simp [hu2], by rw [hr, hr2]⟩
      · exact Or.inr ⟨by simp [hu, hu2], _, by rw [hr, hr2]⟩

/-- Line 77 throws exactly for the values `JSValue.unprintable` names. -/
theorem toStr_converts (nts : JSNumber → List Char) (v : JSValue) :
    Converts v.unprintable (v.toStr nts) := by
  refine JSValue.rec
    (motive_1 := fun v => Converts v.unprintable (v.toStr nts))
    (motive_2 := fun xs => Converts (JSValue.anyUnprintable xs) (JSValue.joinStr nts xs))
    (motive_3 := fun _ => True) (motive_4 := fun _ => True)
    ?_ ?_ ?_ ?_ ?_ ?_ ?_ ?_ ?_ ?_ ?_ ?_ v
  · exact Or.inr ⟨by simp [JSValue.unprintable], "undefined".toList, by simp [JSValue.toStr]⟩
  · exact Or.inr ⟨by simp [JSValue.unprintable], "null".toList, by simp [JSValue.toStr]⟩
  · intro b
    cases b
    · exact Or.inr ⟨by simp [JSValue.unprintable], "false".toList, by simp [JSValue.toStr]⟩
    · exact Or.inr ⟨by simp [JSValue.unprintable], "true".toList, by simp [JSValue.toStr]⟩
  · intro n
    exact Or.inr ⟨by simp [JSValue.unprintable], nts n, by simp [JSValue.toStr]⟩
  · intro t
    exact Or.inr ⟨by simp [JSValue.unprintable], t, by simp [JSValue.toStr]⟩
  · intro xs h
    rw [JSValue.toStr, JSValue.unprintable]
    exact h
  · intro fields _
    by_cases hf : fields.any (fun f => f.1 == "toString") = true
    · exact Or.inl ⟨by simp [JSValue.unprintable, hf], by simp [JSValue.toStr, hf]⟩
    · have hf2 : fields.any (fun f => f.1 == "toString") = false := (Bool.not_eq_true _).mp hf
      exact Or.inr ⟨by rw [JSValue.unprintable]; exact hf2, "[object Object]".toList,
        by simp [JSValue.toStr, hf2]⟩
  · exact Or.inr ⟨by simp [JSValue.anyUnprintable], [], by simp [JSValue.joinStr]⟩
  · intro x rest hx hrest
    exact joinStr_converts_cons nts x rest hx hrest
  · trivial
  · intro _ _ _ _
    trivial
  · intro _ _ _
    trivial

theorem JSValue.toStr_string (nts : JSNumber → List Char) (token : List Char) :
    (JSValue.string token).toStr nts = .ok token := by
  simp [JSValue.toStr]

theorem cookieString_of_string (nts : JSNumber → List Char) (token : List Char)
    (cookies : Cookies) :
    cookieString nts { sessionId := .string token, cookies := cookies } =
      .ok ("B1SESSION=".toList ++ token ++
        (match cookies.get "ROUTEID".toList with
          | none => []
          | some [] => []
          | some (c :: id) => "; ROUTEID=".toList ++ c :: id)) := by
  simp only [cookieString, JSValue.toStr_string]
  cases h : cookies.get "ROUTEID".toList with
  | none => simp [truthyStr]
  | some v =>
    cases v with
    | nil => simp [truthyStr]
    | cons c id => simp [truthyStr]

/-- The wording of C5 holds for every login result whose `ROUTEID` is not the
empty string: without a routing cookie the header is `B1SESSION=<token>`, with
one it is `B1SESSION=<token>; ROUTEID=<id>`. -/
theorem cookieString_of_route_not_empty (nts : JSNumber → List Char) (token : List Char)
    (cookies : Cookies) (h : cookies.get "ROUTEID".toList ≠ some []) :
    cookieString nts { sessionId := .string token, cookies := cookies } =
      .ok ("B1SESSION=".toList ++ token ++
        (match cookies.get "ROUTEID".toList with
          | none => []
          | some id => "; ROUTEID=".toList ++ id)) := by
  rw [cookieString_of_string]
  cases hc : cookies.get "ROUTEID".toList with
  | none => rfl
  | some v =>
    cases v with
    | nil => exact absurd hc h
    | cons c id => rfl

theorem fetchInvoicesRequest_of_cookie (nts : JSNumber → List Char) (loginData : LoginData)
    (customerCode cookie : List Char) (h : cookieString nts loginData = .ok cookie) :
    fetchInvoicesRequest nts loginData customerCode =
      .ok { url := invoicesUrl customerCode, cookie := cookie } := by
  simp [fetchInvoicesRequest, fetchInvoicesRequestTry, h]

theorem fetchInvoicesRequest_of_unprintable (nts : JSNumber → List Char) (loginData : LoginData)
    (customerCode : List Char) (h : loginData.sessionId.unprintable = true) :
    fetchInvoicesRequest nts loginData customerCode = .error "LOADING INVOICES FAILED" := by
  rcases toStr_converts nts loginData.sessionId with ⟨-, hr⟩ | ⟨hu, -⟩
  · simp [fetchInvoicesRequest, fetchInvoicesRequestTry, cookieString, hr]
  · rw [h] at hu; cases hu

theorem fetchInvoicesRequest_of_printable (nts : JSNumber → List Char) (loginData : LoginData)
    (customerCode : List Char) (h : loginData.sessionId.unprintable = false) :
    ∃ request, fetchInvoicesRequest nts loginData customerCode = .ok request := by
  rcases toStr_converts nts loginData.sessionId with ⟨hu, -⟩ | ⟨-, t, hr⟩
  · rw [h] at hu; cases hu
  · have hc : ∃ cookie, cookieString nts loginData = .ok cookie := by
      simp only [cookieString, hr]
      split
      · exact ⟨_, rfl⟩
      · exact ⟨_, rfl⟩
    obtain ⟨cookie, hc⟩ := hc
    exact ⟨_, fetchInvoicesRequest_of_cookie nts loginData customerCode cookie hc⟩

/-! ### The transition system -/

theorem lt_of_getElem?_eq_some {α : Type} (l : List α) (i : Nat) (a : α) (h : l[i]? = some a) :
    i < l.length := by
  by_contra hge
  rw [List.getElem?_eq_none (by omega)] at h
  cases h

theorem setPhase_getElem?_self (s : State) (i : Nat) (c : Cycle) (customerCode : List Char)
    (phase : Phase) (h : s.cycles[i]? = some c) :
    (s.setPhase i customerCode phase).cycles[i]? =
      some { customerCode := customerCode, phase := phase } := by
  simp [State.setPhase, List.getElem?_set_self (lt_of_getElem?_eq_some _ _ _ h)]

theorem step_loginSettled_fails (nts : JSNumber → List Char) (s : State) (i : Nat)
    (customerCode : List Char) (net : NetOutcome)
    (hphase : s.cycles[i]? = some { customerCode := customerCode, phase := .loggingIn })
    (hfail : loginFails net = true) :
    step nts s (.loginSettled i net) =
      { (s.setPhase i customerCode .finished) with
        ui := { s.ui with loginStatus := "LOGIN FAILED", error := "LOGIN FAILED" } } := by
  simp [step, hphase, login_of_fails net s.ui hfail]

theorem step_loginSettled_ok (nts : JSNumber → List Char) (s : State) (i : Nat)
    (customerCode : List Char) (net : NetOutcome)
    (hphase : s.cycles[i]? = some { customerCode := customerCode, phase := .loggingIn })
    (hlogin : loginFails net = false) :
    ∃ loginData, (login net s.ui).2 = .ok loginData ∧
      step nts s (.loginSettled i net) =
        { (s.setPhase i customerCode (.waiting loginData)) with
          ui := { s.ui with loginStatus := "LOGIN SUCCESS" }
          calls := s.calls ++ [.setTimeout i] } := by
  obtain ⟨r, data, sessionId, -, -, -, -, hl⟩ := login_of_not_fails net s.ui hlogin
  exact ⟨_, by rw [hl], by simp [step, hphase, hl]⟩

theorem step_timerFired_ok (nts : JSNumber → List Char) (s : State) (i : Nat)
    (customerCode : List Char) (loginData : LoginData) (request : Request)
    (hphase : s.cycles[i]? = some { customerCode := customerCode, phase := .waiting loginData })
    (hrequest : fetchInvoicesRequest nts loginData customerCode = .ok request) :
    step nts s (.timerFired i) =
      { (s.setPhase i customerCode .fetching) with
        ui := { s.ui with loading := true }
        calls := s.calls ++
          [.fetchInvoices i loginData customerCode, .invoicesGet i request] } := by
  simp [step, hphase, hrequest]

theorem step_timerFired_error (nts : JSNumber → List Char) (s : State) (i : Nat)
    (customerCode : List Char) (loginData : LoginData) (message : String)
    (hphase : s.cycles[i]? = some { customerCode := customerCode, phase := .waiting loginData })
    (hrequest : fetchInvoicesRequest nts loginData customerCode = .error message) :
    step nts s (.timerFired i) =
      { (s.setPhase i customerCode .finished) with
        ui := { s.ui with error := message, loading := false }
        calls := s.calls ++ [.fetchInvoices i loginData customerCode] } := by
  simp [step, hphase, hrequest]

theorem step_fetchSettled_ok (nts : JSNumber → List Char) (s : State) (i : Nat)
    (customerCode : List Char) (net : NetOutcome) (value : JSValue)
    (hphase : s.cycles[i]? = some { customerCode := customerCode, phase := .fetching })
    (hfetch : fetchInvoices net = .ok value) :
    step nts s (.fetchSettled i net) =
      { (s.setPhase i customerCode .finished) with
        ui := { s.ui with invoices := value, loading := false } } := by
  simp [step, hphase, hfetch]

theorem step_fetchSettled_error (nts : JSNumber → List Char) (s : State) (i : Nat)
    (customerCode : List Char) (net : NetOutcome) (message : String)
    (hphase : s.cycles[i]? = some { customerCode := customerCode, phase := .fetching })
    (hfetch : fetchInvoices net = .error message) :
    step nts s (.fetchSettled i net) =
      { (s.setPhase i customerCode .finished) with
        ui := { s.ui with error := message, loading := false } } := by
  simp [step, hphase, hfetch]

theorem step_fetchSettled_finished (nts : JSNumber → List Char) (s : State) (i : Nat)
    (customerCode : List Char) (net : NetOutcome)
    (hphase : s.cycles[i]? = some { customerCode := customerCode, phase := .finished }) :
    step nts s (.fetchSettled i net) = s := by
  simp [step, hphase]

theorem step_fetchSettled_fails (nts : JSNumber → List Char) (s : State) (i : Nat)
    (customerCode : List Char) (net : NetOutcome)
    (hphase : s.cycles[i]? = some { customerCode := customerCode, phase := .fetching })
    (hfail : fetchFails net = true) :
    step nts s (.fetchSettled i net) =
      { (s.setPhase i customerCode .finished) with
        ui := { s.ui with error := "LOADING INVOICES FAILED", loading := false } } :=
  step_fetchSettled_error nts s i customerCode net _ hphase (fetchInvoices_of_fails net hfail)

/-- What one event does, case by case. -/
theorem step_cases (nts : JSNumber → List Char) (s : State) (e : Event) :
    step nts s e = s ∨
    (∃ customerCode, e = .load customerCode ∧
      (step nts s e).cycles =
        s.cycles ++ [{ customerCode := customerCode, phase := .loggingIn }] ∧
      (step nts s e).calls = s.calls ++ [.loginPost s.cycles.length]) ∨
    (∃ i customerCode phase0 phase1 added, e.cycle? = some i ∧
      s.cycles[i]? = some { customerCode := customerCode, phase := phase0 } ∧
      (step nts s e).cycles = s.cycles.set i { customerCode := customerCode, phase := phase1 } ∧
      (step nts s e).calls = s.calls ++ added ∧
      (∀ c ∈ added, c.cycle = i) ∧
      (added = [] ∨ phase0 = .loggingIn ∨ ∃ loginData, phase0 = .waiting loginData) ∧
      phase0 ≠ .finished ∧ phase1 ≠ .loggingIn) := by
  cases e with
  | load code => exact Or.inr (Or.inl ⟨code, rfl, rfl, rfl⟩)
  | loginSettled j net =>
    simp only [step]
    split
    next code hc =>
      right; right
      split
      next ui1 ld hl =>
        exact ⟨j, code, .loggingIn, .waiting ld, [.setTimeout j], rfl, hc, rfl, rfl,
          by simp [Call.cycle], Or.inr (Or.inl rfl), by simp, by simp⟩
      next ui1 m hl =>
        exact ⟨j, code, .loggingIn, .finished, [], rfl, hc, rfl, by simp [State.setPhase],
          by simp, Or.inl rfl, by simp, by simp⟩
    next => exact Or.inl rfl
  | timerFired j =>
    simp only [step]
    split
    next code ld hc =>
      right; right
      split
      next request hr =>
        exact ⟨j, code, .waiting ld, .fetching, _, rfl, hc, rfl, rfl,
          by simp [Call.cycle], Or.inr (Or.inr ⟨ld, rfl⟩), by simp, by simp⟩
      next m hr =>
        exact ⟨j, code, .waiting ld, .finished, _, rfl, hc, rfl, rfl,
          by simp [Call.cycle], Or.inr (Or.inr ⟨ld, rfl⟩), by simp, by simp⟩
    next => exact Or.inl rfl
  | fetchSettled j net =>
    simp only [step]
    split
    next code hc =>
      right; right
      split
      next v hv =>
        exact ⟨j, code, .fetching, .finished, [], rfl, hc, rfl, by simp [State.setPhase],
          by simp, Or.inl rfl, by simp, by simp⟩
      next m hv =>
        exact ⟨j, code, .fetching, .finished, [], rfl, hc, rfl, by simp [State.setPhase],
          by simp, Or.inl rfl, by simp, by simp⟩
    next => exact Or.inl rfl

theorem step_cycles_of_ne (nts : JSNumber → List Char) (s : State) (e : Event) (i : Nat)
    (c : Cycle) (hne : e.cycle? ≠ some i) (hc : s.cycles[i]? = some c) :
    (step nts s e).cycles[i]? = some c := by
  have hlt := lt_of_getElem?_eq_some _ _ _ hc
  rcases step_cases nts s e with h | ⟨code, -, h, -⟩ | ⟨j, code, p0, p1, added, hj, -, h, -⟩
  · rw [h]; exact hc
  · rw [h, List.getElem?_append_left hlt]; exact hc
  · have hji : j ≠ i := fun hEq => hne (by rw [hj, hEq])
    rw [h, List.getElem?_set_ne hji]; exact hc

theorem step_none_back (nts : JSNumber → List Char) (s : State) (e : Event) (i : Nat)
    (h : (step nts s e).cycles[i]? = none) : s.cycles[i]? = none := by
  rw [List.getElem?_eq_none_iff] at h ⊢
  rcases step_cases nts s e with h1 | ⟨code, -, h1, -⟩ | ⟨j, code, p0, p1, added, -, -, h1, -⟩
  · rw [h1] at h; exact h
  · rw [h1] at h; simp at h; omega
  · rw [h1] at h; simpa using h

theorem step_finished (nts : JSNumber → List Char) (s : State) (e : Event) (i : Nat)
    (customerCode : List Char)
    (h : s.cycles[i]? = some { customerCode := customerCode, phase := .finished }) :
    (step nts s e).cycles[i]? = some { customerCode := customerCode, phase := .finished } := by
  have hlt := lt_of_getElem?_eq_some _ _ _ h
  rcases step_cases nts s e with h1 | ⟨code, -, h1, -⟩ |
    ⟨j, code, p0, p1, added, -, hj, h1, -, -, -, hp0, -⟩
  · rw [h1]; exact h
  · rw [h1, List.getElem?_append_left hlt]; exact h
  · have hji : j ≠ i := by
      rintro rfl
      rw [h] at hj
      injection hj with hj
      injection hj with _ hj
      exact hp0 hj.symm
    rw [h1, List.getElem?_set_ne hji]; exact h

theorem step_loggingIn_back (nts : JSNumber → List Char) (s : State) (e : Event) (i : Nat)
    (customerCode : List Char)
    (h : (step nts s e).cycles[i]? = some { customerCode := customerCode, phase := .loggingIn }) :
    s.cycles[i]? = none ∨
      s.cycles[i]? = some { customerCode := customerCode, phase := .loggingIn } := by
  cases hc : s.cycles[i]? with
  | none => exact Or.inl rfl
  | some c =>
    right
    have hlt := lt_of_getElem?_eq_some _ _ _ hc
    rcases step_cases nts s e with h1 | ⟨code, -, h1, -⟩ |
      ⟨j, code, p0, p1, added, -, hj, h1, -, -, -, -, hp1⟩
    · rw [h1, hc] at h; exact h
    · rw [h1, List.getElem?_append_left hlt, hc] at h; exact h
    · by_cases hji : j = i
      · subst hji
        rw [h1, List.getElem?_set_self hlt] at h
        injection h with h
        injection h with _ h
        exact absurd h hp1
      · rw [h1, List.getElem?_set_ne hji, hc] at h; exact h

/-- Every call an event adds that is not a login POST belongs to a cycle that
was logging in or waiting before the event and is past logging in after
it. -/
theorem step_calls_mem (nts : JSNumber → List Char) (s : State) (e : Event) (c : Call)
    (hc : c ∈ (step nts s e).calls) :
    c ∈ s.calls ∨ c.isLoginPost = true ∨
      ∃ customerCode phase0 phase1,
        s.cycles[c.cycle]? = some { customerCode := customerCode, phase := phase0 } ∧
        (step nts s e).cycles[c.cycle]? =
          some { customerCode := customerCode, phase := phase1 } ∧
        phase0 ≠ .finished ∧ phase1 ≠ .loggingIn := by
  rcases step_cases nts s e with h1 | ⟨code, -, -, h1⟩ |
    ⟨j, code, p0, p1, added, -, hj, hcyc, h1, hadded, -, hp0, hp1⟩
  · rw [h1] at hc; exact Or.inl hc
  · rw [h1, List.mem_append] at hc
    rcases hc with hc | hc
    · exact Or.inl hc
    · simp only [List.mem_singleton] at hc
      exact Or.inr (Or.inl (by rw [hc]; rfl))
  · rw [h1, List.mem_append] at hc
    rcases hc with hc | hc
    · exact Or.inl hc
    · right; right
      have hcj := hadded c hc
      rw [hcj]
      exact ⟨code, p0, p1, hj,
        by rw [hcyc, List.getElem?_set_self (lt_of_getElem?_eq_some _ _ _ hj)], hp0, hp1⟩

theorem endedQuiet_step (nts : JSNumber → List Char) (s : State) (e : Event) (i : Nat)
    (customerCode : List Char) (h : s.endedQuiet i customerCode) :
    (step nts s e).endedQuiet i customerCode := by
  obtain ⟨hphase, hq⟩ := h
  refine ⟨step_finished nts s e i customerCode hphase, ?_⟩
  intro c hc hci
  rcases step_calls_mem nts s e c hc with h1 | h1 | ⟨code, p0, p1, h0, -, hp0, -⟩
  · exact hq c h1 hci
  · exact h1
  · rw [hci, hphase] at h0
    injection h0 with h0
    injection h0 with _ h0
    exact absurd h0.symm hp0

theorem endedQuiet_run (nts : JSNumber → List Char) (events : List Event) (s : State) (i : Nat)
    (customerCode : List Char) (h : s.endedQuiet i customerCode) :
    (run nts s events).endedQuiet i customerCode := by
  induction events generalizing s with
  | nil => exact h
  | cons e rest ih => exact ih (step nts s e) (endedQuiet_step nts s e i customerCode h)

theorem fresh_initial : State.initial.fresh := by
  intro i _ c hc
  simp [State.initial] at hc

theorem fresh_step (nts : JSNumber → List Char) (s : State) (e : Event) (h : s.fresh) :
    (step nts s e).fresh := by
  intro i hi c hc hci
  have hs : s.quiet i := by
    apply h i
    rcases hi with hi | ⟨code, hi⟩
    · exact Or.inl (step_none_back nts s e i hi)
    · rcases step_loggingIn_back nts s e i code hi with h1 | h1
      · exact Or.inl h1
      · exact Or.inr ⟨code, h1⟩
  rcases step_calls_mem nts s e c hc with h1 | h1 | ⟨code, p0, p1, -, h1, -, hp1⟩
  · exact hs c h1 hci
  · exact h1
  · rw [hci] at h1
    rcases hi with hi | ⟨code2, hi⟩
    · rw [hi] at h1; cases h1
    · rw [hi] at h1
      injection h1 with h1
      injection h1 with _ h1
      exact absurd h1.symm hp1

theorem fresh_run (nts : JSNumber → List Char) (events : List Event) (s : State)
    (h : s.fresh) : (run nts s events).fresh := by
  induction events generalizing s with
  | nil => exact h
  | cons e rest ih => exact ih (step nts s e) (fresh_step nts s e h)

theorem quiet_counts (s : State) (i : Nat) (h : s.quiet i) :
    s.fetchCallCount i = 0 ∧ s.timerCount i = 0 ∧ s.fetchInvoicesCount i = 0 := by
  refine ⟨?_, ?_, ?_⟩
  · rw [State.fetchCallCount, List.countP_eq_zero]
    intro c hc hp
    cases c with
    | invoicesGet j r =>
      have hj : j = i := by simpa [Call.isGetOf] using hp
      have := h _ hc (by simp [Call.cycle, hj])
      simp [Call.isLoginPost] at this
    | _ => simp [Call.isGetOf] at hp
  · rw [State.timerCount, List.countP_eq_zero]
    intro c hc hp
    cases c with
    | setTimeout j =>
      have hj : j = i := by simpa [Call.isTimerOf] using hp
      have := h _ hc (by simp [Call.cycle, hj])
      simp [Call.isLoginPost] at this
    | _ => simp [Call.isTimerOf] at hp
  · rw [State.fetchInvoicesCount, List.countP_eq_zero]
    intro c hc hp
    cases c with
    | fetchInvoices j ld code =>
      have hj : j = i := by simpa [Call.isFetchInvoicesOf] using hp
      have := h _ hc (by simp [Call.cycle, hj])
      simp [Call.isLoginPost] at this
    | _ => simp [Call.isFetchInvoicesOf] at hp

theorem run_append (nts : JSNumber → List Char) (s : State) (evs1 evs2 : List Event) :
    run nts s (evs1 ++ evs2) = run nts (run nts s evs1) evs2 := by
  simp [run, List.foldl_append]

theorem run_three (nts : JSNumber → List Char) (s : State) (a b c : Event) :
    run nts s [a, b, c] = step nts (step nts (step nts s a) b) c := rfl

theorem run_cycles_of_ne (nts : JSNumber → List Char) (mid : List Event) (s : State) (i : Nat)
    (c : Cycle) (hmid : ∀ e ∈ mid, e.cycle? ≠ some i) (hc : s.cycles[i]? = some c) :
    (run nts s mid).cycles[i]? = some c := by
  induction mid generalizing s with
  | nil => exact hc
  | cons e rest ih =>
    exact ih (step nts s e) (fun e1 h1 => hmid e1 (List.mem_cons_of_mem _ h1))
      (step_cycles_of_ne nts s e i c (hmid e (List.mem_cons_self _ _)) hc)

theorem loginFails_of_login_ok (net : NetOutcome) (ui : UIState) (loginData : LoginData)
    (h : (login net ui).2 = .ok loginData) : loginFails net = false := by
  cases hf : loginFails net with
  | false => rfl
  | true =>
    rw [login_of_fails net ui hf] at h
    cases h

theorem step_loginSettled_of_login (nts : JSNumber → List Char) (s : State) (i : Nat)
    (customerCode : List Char) (net : NetOutcome) (loginData : LoginData)
    (hphase : s.cycles[i]? = some { customerCode := customerCode, phase := .loggingIn })
    (hlogin : (login net s.ui).2 = .ok loginData) :
    step nts s (.loginSettled i net) =
      { (s.setPhase i customerCode (.waiting loginData)) with
        ui := { s.ui with loginStatus := "LOGIN SUCCESS" }
        calls := s.calls ++ [.setTimeout i] } := by
  obtain ⟨ld, h1, h2⟩ := step_loginSettled_ok nts s i customerCode net hphase
    (loginFails_of_login_ok net s.ui loginData hlogin)
  rw [hlogin] at h1
  injection h1 with h1
  rw [h2, h1]

/-- After a successful login whose session identifier can be written into the
header, and the timer, with any events of other cycles in between, the cycle
is suspended at its invoice request. -/
theorem run_to_fetching (nts : JSNumber → List Char) (s : State) (i : Nat)
    (customerCode : List Char) (netL : NetOutcome) (loginData : LoginData)
    (mid1 mid2 : List Event)
    (hphase : s.cycles[i]? = some { customerCode := customerCode, phase := .loggingIn })
    (hlogin : (login netL s.ui).2 = .ok loginData)
    (hsession : loginData.sessionId.unprintable = false)
    (hmid1 : ∀ e ∈ mid1, e.cycle? ≠ some i) (hmid2 : ∀ e ∈ mid2, e.cycle? ≠ some i) :
    (run nts s ([.loginSettled i netL] ++ mid1 ++ [.timerFired i] ++ mid2)).cycles[i]? =
      some { customerCode := customerCode, phase := .fetching } := by
  have h1 := step_loginSettled_of_login nts s i customerCode netL loginData hphase hlogin
  have c1 : (run nts s [.loginSettled i netL]).cycles[i]? =
      some { customerCode := customerCode, phase := .waiting loginData } := by
    show (step nts s (.loginSettled i netL)).cycles[i]? = _
    rw [h1]
    exact setPhase_getElem?_self s i _ _ _ hphase
  have c2 := run_cycles_of_ne nts mid1 _ i _ hmid1 c1
  obtain ⟨request, hrequest⟩ :=
    fetchInvoicesRequest_of_printable nts loginData customerCode hsession
  have c3 : (run nts (run nts (run nts s [.loginSettled i netL]) mid1)
      [.timerFired i]).cycles[i]? =
      some { customerCode := customerCode, phase := .fetching } := by
    show (step nts _ (.timerFired i)).cycles[i]? = _
    rw [step_timerFired_ok nts _ i customerCode loginData request c2 hrequest]
    exact setPhase_getElem?_self _ i _ _ _ c2
  rw [run_append, run_append, run_append]
  exact run_cycles_of_ne nts mid2 _ i _ hmid2 c3

/-- A cycle that runs undisturbed: after a successful login, the state in
which its timer fires. -/
theorem run_cycle_to_waiting (nts : JSNumber → List Char) (s : State) (i : Nat)
    (customerCode : List Char) (netL : NetOutcome) (loginData : LoginData)
    (hphase : s.cycles[i]? = some { customerCode := customerCode, phase := .loggingIn })
    (hlogin : (login netL s.ui).2 = .ok loginData) :
    ∃ t, step nts s (.loginSettled i netL) = t ∧
      t.cycles[i]? = some { customerCode := customerCode, phase := .waiting loginData } ∧
      t.ui = { s.ui with loginStatus := "LOGIN SUCCESS" } := by
  have h1 := step_loginSettled_of_login nts s i customerCode netL loginData hphase hlogin
  refine ⟨_, rfl, ?_, ?_⟩
  · rw [h1]
    exact setPhase_getElem?_self s i _ _ _ hphase
  · rw [h1]

theorem run_cycle_request_fails (nts : JSNumber → List Char) (s : State) (i : Nat)
    (customerCode : List Char) (netL netF : NetOutcome) (loginData : LoginData)
    (hphase : s.cycles[i]? = some { customerCode := customerCode, phase := .loggingIn })
    (hlogin : (login netL s.ui).2 = .ok loginData)
    (hsession : loginData.sessionId.unprintable = true) :
    (run nts s [.loginSettled i netL, .timerFired i, .fetchSettled i netF]).ui =
      { s.ui with loginStatus := "LOGIN SUCCESS", error := "LOADING INVOICES FAILED",
                  loading := false } := by
  obtain ⟨t, ht, hc, hu⟩ := run_cycle_to_waiting nts s i customerCode netL loginData hphase hlogin
  have h2 := step_timerFired_error nts t i customerCode loginData _ hc
    (fetchInvoicesRequest_of_unprintable nts loginData customerCode hsession)
  have c2 : (step nts t (.timerFired i)).cycles[i]? =
      some { customerCode := customerCode, phase := .finished } := by
    rw [h2]
    exact setPhase_getElem?_self t i _ _ _ hc
  have h3 := step_fetchSettled_finished nts (step nts t (.timerFired i)) i customerCode netF c2
  rw [run_three, ht, h3, h2]
  simp only [hu]

theorem run_cycle_ok (nts : JSNumber → List Char) (s : State) (i : Nat)
    (customerCode : List Char) (netL netF : NetOutcome) (loginData : LoginData)
    (value : JSValue)
    (hphase : s.cycles[i]? = some { customerCode := customerCode, phase := .loggingIn })
    (hlogin : (login netL s.ui).2 = .ok loginData)
    (hsession : loginData.sessionId.unprintable = false)
    (hfetch : fetchInvoices netF = .ok value) :
    (run nts s [.loginSettled i netL, .timerFired i, .fetchSettled i netF]).ui =
      { s.ui with loginStatus := "LOGIN SUCCESS", invoices := value, loading := false } := by
  obtain ⟨t, ht, hc, hu⟩ := run_cycle_to_waiting nts s i customerCode netL loginData hphase hlogin
  obtain ⟨request, hrequest⟩ :=
    fetchInvoicesRequest_of_printable nts loginData customerCode hsession
  have h2 := step_timerFired_ok nts t i customerCode loginData request hc hrequest
  have c2 : (step nts t (.timerFired i)).cycles[i]? =
      some { customerCode := customerCode, phase := .fetching } := by
    rw [h2]
    exact setPhase_getElem?_self t i _ _ _ hc
  have u2 : (step nts t (.timerFired i)).ui = { t.ui with loading := true } := by
    rw [h2]
  rw [run_three, ht, step_fetchSettled_ok nts _ i customerCode netF value c2 hfetch]
  simp only [u2, hu]

theorem run_cycle_fetch_fails (nts : JSNumber → List Char) (s : State) (i : Nat)
    (customerCode : List Char) (netL netF : NetOutcome) (loginData : LoginData)
    (hphase : s.cycles[i]? = some { customerCode := customerCode, phase := .loggingIn })
    (hlogin : (login netL s.ui).2 = .ok loginData)
    (hsession : loginData.sessionId.unprintable = false)
    (hfail : fetchFails netF = true) :
    (run nts s [.loginSettled i netL, .timerFired i, .fetchSettled i netF]).ui =
      { s.ui with loginStatus := "LOGIN SUCCESS", error := "LOADING INVOICES FAILED",
                  loading := false } := by
  obtain ⟨t, ht, hc, hu⟩ := run_cycle_to_waiting nts s i customerCode netL loginData hphase hlogin
  obtain ⟨request, hrequest⟩ :=
    fetchInvoicesRequest_of_printable nts loginData customerCode hsession
  have h2 := step_timerFired_ok nts t i customerCode loginData request hc hrequest
  have c2 : (step nts t (.timerFired i)).cycles[i]? =
      some { customerCode := customerCode, phase := .fetching } := by
    rw [h2]
    exact setPhase_getElem?_self t i _ _ _ hc
  have u2 : (step nts t (.timerFired i)).ui = { t.ui with loading := true } := by
    rw [h2]
  rw [run_three, ht, step_fetchSettled_fails nts _ i customerCode netF c2 hfail]
  simp only [u2, hu]

theorem run_cycle_login_fails (nts : JSNumber → List Char) (s : State) (i : Nat)
    (customerCode : List Char) (netL netF : NetOutcome)
    (hphase : s.cycles[i]? = some { customerCode := customerCode, phase := .loggingIn })
    (hfail : loginFails netL = true) :
    run nts s [.loginSettled i netL, .timerFired i, .fetchSettled i netF] =
      { (s.setPhase i customerCode .finished) with
        ui := { s.ui with loginStatus := "LOGIN FAILED", error := "LOGIN FAILED" } } := by
  have hfin := setPhase_getElem?_self s i _ customerCode .finished hphase
  rw [run_three, step_loginSettled_fails nts s i customerCode netL hphase hfail]
  simp [step, hfin]

/-! ### The summary total -/

theorem Components.addDocTotal_number (a : JSNumber) (inv : JSValue)
    (h : Components.hasNumericOrAbsentTotal inv) :
    Components.addDocTotal (.number a) inv =
      some (.number (a.add (Components.docTotalOrZero inv))) := by
  rcases h with ⟨n, h⟩ | h | h
  · cases n with
    | nan =>
      simp [Components.addDocTotal, Components.docTotalOrZero, h, JSValue.or, JSValue.truthy,
        JSNumber.truthy, Components.jsAdd]
    | infinity negative =>
      simp [Components.addDocTotal, Components.docTotalOrZero, h, JSValue.or, JSValue.truthy,
        JSNumber.truthy, Components.jsAdd]
    | zero negative =>
      simp [Components.addDocTotal, Components.docTotalOrZero, h, JSValue.or, JSValue.truthy,
        JSNumber.truthy, Components.jsAdd]
    | finite x =>
      by_cases hx : x = 0
      · simp [Components.addDocTotal, Components.docTotalOrZero, h, JSValue.or, JSValue.truthy,
          JSNumber.truthy, Components.jsAdd, hx]
      · simp [Components.addDocTotal, Components.docTotalOrZero, h, JSValue.or, JSValue.truthy,
          JSNumber.truthy, Components.jsAdd, hx]
  · simp [Components.addDocTotal, Components.docTotalOrZero, h, JSValue.or, JSValue.truthy,
      Components.jsAdd]
  · simp [Components.addDocTotal, Components.docTotalOrZero, h, JSValue.or, JSValue.truthy,
      Components.jsAdd]

theorem Components.reduceFrom_number (invoices : List JSValue) (a : JSNumber)
    (h : ∀ inv ∈ invoices, Components.hasNumericOrAbsentTotal inv) :
    Components.reduceFrom (.number a) invoices =
      some (.number ((invoices.map Components.docTotalOrZero).foldl JSNumber.add a)) := by
  induction invoices generalizing a with
  | nil => simp [Components.reduceFrom]
  | cons inv rest ih =>
    have h1 := Components.addDocTotal_number a inv (h inv (List.mem_cons_self _ _))
    simp only [Components.reduceFrom, h1]
    rw [ih _ (fun x hx => h x (List.mem_cons_of_mem _ hx))]
    simp

/-- The model's addition at the sums 10.5 + 5, 0.1 + 0.2 and 2^53 + 1: the
first is exact, the second is the value above the one nearest to 0.3, the
third is a tie that goes to the even significand. -/
theorem JSNumber.add_examples :
    JSNumber.add (.finite (21 / 2)) (.finite 5) = .finite (31 / 2) ∧
    JSNumber.add (JSNumber.round (1 / 10)) (JSNumber.round (2 / 10)) =
      .finite (1351079888211149 / 4503599627370496) ∧
    JSNumber.add (JSNumber.round (1 / 10)) (JSNumber.round (2 / 10)) ≠ JSNumber.round (3 / 10) ∧
    JSNumber.add (.finite 9007199254740992) (.finite 1) = .finite 9007199254740992 := by
  decide!

/-- The summary total of the totals 0.1 and 0.2 is 0.30000000000000004, the
binary64 value above the one nearest to 0.3. -/
theorem Components.summaryTotal_tenth_and_fifth :
    Components.summaryTotal sampleTenthAndFifth =
      some (.number (.finite (1351079888211149 / 4503599627370496))) := by
  have h : ∀ inv ∈ sampleTenthAndFifth, Components.hasNumericOrAbsentTotal inv := by
    intro inv hinv
    simp only [sampleTenthAndFifth, List.mem_cons, List.mem_singleton, List.not_mem_nil,
      or_false] at hinv
    rcases hinv with rfl | rfl
    · exact Or.inl ⟨_, rfl⟩
    · exact Or.inl ⟨_, rfl⟩
  rw [Components.summaryTotal, Components.reduceFrom_number _ _ h]
  exact congrArg (fun n => some (JSValue.number n)) (by decide!)

/-- The order of the documents matters to the model's sum as it does to the
code's: 0.1, 0.2, 0.3 and 0.3, 0.2, 0.1 give different totals. -/
theorem Components.sumLeftToRight_order :
    Components.sumLeftToRight
        [JSNumber.round (1 / 10), JSNumber.round (2 / 10), JSNumber.round (3 / 10)] ≠
      Components.sumLeftToRight
        [JSNumber.round (3 / 10), JSNumber.round (2 / 10), JSNumber.round (1 / 10)] := by
  decide!

/-! ## Theorems -/

/-- C1: in a load cycle whose login fails (request rejected, non-ok status,
unparsable or null body), whatever happens before and after, the cycle issues
no invoice GET and schedules no 5000 ms timer, it has ended, and it never
calls `fetchInvoices`. -/
theorem loadInvoices_login_failure_never_fetches (nts : JSNumber → List Char)
    (pre post : List Event) (i : Nat) (customerCode : List Char) (net : NetOutcome)
    (hphase : (run nts State.initial pre).cycles[i]? =
      some { customerCode := customerCode, phase := .loggingIn })
    (hfail : loginFails net = true) :
    (run nts (step nts (run nts State.initial pre) (.loginSettled i net)) post
      ).fetchCallCount i = 0 ∧
    (run nts (step nts (run nts State.initial pre) (.loginSettled i net)) post
      ).timerCount i = 0 ∧
    (run nts (step nts (run nts State.initial pre) (.loginSettled i net)) post).cycles[i]? =
      some { customerCode := customerCode, phase := .finished } ∧
    (run nts (step nts (run nts State.initial pre) (.loginSettled i net)) post
      ).fetchInvoicesCount i = 0 := by
  have hq : (run nts State.initial pre).quiet i :=
    fresh_run nts pre _ fresh_initial i (Or.inr ⟨customerCode, hphase⟩)
  have hended : (step nts (run nts State.initial pre) (.loginSettled i net)).endedQuiet i
      customerCode := by
    rw [step_loginSettled_fails nts _ i customerCode net hphase hfail]
    exact ⟨setPhase_getElem?_self _ i _ _ _ hphase, hq⟩
  obtain ⟨h1, h2⟩ := endedQuiet_run nts post _ i customerCode hended
  obtain ⟨h3, h4, h5⟩ := quiet_counts _ i h2
  exact ⟨h3, h4, h1, h5⟩

/-- C1, at a concrete run: the login of the first cycle is answered with
status 401; the timer and fetch events that follow find nothing to do. -/
theorem loadInvoices_login_failure_never_fetches_witness :
    (run sampleNumberToString State.initial [.load "C20000".toList]).cycles[0]? =
      some { customerCode := "C20000".toList, phase := .loggingIn } ∧
    loginFails sampleUnauthorized = true ∧
    (run sampleNumberToString
      (step sampleNumberToString (run sampleNumberToString State.initial
        [.load "C20000".toList]) (.loginSettled 0 sampleUnauthorized))
      [.timerFired 0, .fetchSettled 0 (.response (sampleInvoicesOk []))]).fetchCallCount 0 = 0 ∧
    (run sampleNumberToString
      (step sampleNumberToString (run sampleNumberToString State.initial
        [.load "C20000".toList]) (.loginSettled 0 sampleUnauthorized))
      [.timerFired 0, .fetchSettled 0 (.response (sampleInvoicesOk []))]).timerCount 0 = 0 :=
  ⟨rfl, rfl,
    (loadInvoices_login_failure_never_fetches sampleNumberToString [.load "C20000".toList]
      [.timerFired 0, .fetchSettled 0 (.response (sampleInvoicesOk []))] 0 "C20000".toList
      sampleUnauthorized rfl rfl).1,
    (loadInvoices_login_failure_never_fetches sampleNumberToString [.load "C20000".toList]
      [.timerFired 0, .fetchSettled 0 (.response (sampleInvoicesOk []))] 0 "C20000".toList
      sampleUnauthorized rfl rfl).2.1⟩

/-- C2: when the invoice response is ok and its JSON body has a `value` array
`xs`, `fetchInvoices` returns exactly `xs`. In a cycle whose login succeeded
and whose request was made, whatever other cycles do in between, the moment
the invoice request settles `invoices` becomes `xs` and `loading` false, the
other cells staying as they are; `InvoicesList` stores `xs` too. -/
theorem fetchInvoices_returns_value_array (nts : JSNumber → List Char) (s : State) (i : Nat)
    (customerCode : List Char) (netL : NetOutcome) (loginData : LoginData)
    (mid1 mid2 : List Event) (r : Response) (data : JSValue)
    (xs : List JSValue) (typeErrorMessage : String) (st : Components.ListState)
    (hphase : s.cycles[i]? = some { customerCode := customerCode, phase := .loggingIn })
    (hlogin : (login netL s.ui).2 = .ok loginData)
    (hsession : loginData.sessionId.unprintable = false)
    (hmid1 : ∀ e ∈ mid1, e.cycle? ≠ some i) (hmid2 : ∀ e ∈ mid2, e.cycle? ≠ some i)
    (hok : r.ok = true) (hjson : r.json = .ok data)
    (hvalue : data.prop "value" = .ok (.array xs)) :
    fetchInvoices (.response r) = .ok (.array xs) ∧
    (step nts (run nts s ([.loginSettled i netL] ++ mid1 ++ [.timerFired i] ++ mid2))
        (.fetchSettled i (.response r))).ui =
      { (run nts s ([.loginSettled i netL] ++ mid1 ++ [.timerFired i] ++ mid2)).ui with
        invoices := .array xs, loading := false } ∧
    (Components.fetchInvoices typeErrorMessage (.response r) st).invoices = .array xs := by
  have hf : fetchInvoices (.response r) = .ok (.array xs) :=
    fetchInvoices_of_value r data _ hok hjson hvalue
  refine ⟨hf, ?_, ?_⟩
  · rw [step_fetchSettled_ok nts _ i customerCode _ _
      (run_to_fetching nts s i customerCode netL loginData mid1 mid2 hphase hlogin hsession
        hmid1 hmid2) hf]
  · have hc := Components.fetchInvoicesTry_of_value r data _ hok hjson hvalue
    simp only [Components.fetchInvoices, hc]
    rfl

/-- C2, at a concrete run: a second cycle starts and logs in while the first
is under way; the two invoices of the first come back and are stored in the
order received. -/
theorem fetchInvoices_returns_value_array_witness :
    sampleMounted.cycles[0]? = some { customerCode := "C20000".toList, phase := .loggingIn } ∧
    (login sampleLoginOk sampleMounted.ui).2 = .ok sampleLoginData ∧
    sampleLoginData.sessionId.unprintable = false ∧
    (step sampleNumberToString
        (run sampleNumberToString sampleMounted ([.loginSettled 0 sampleLoginOk] ++
          [.load "C30000".toList] ++ [.timerFired 0] ++ [.loginSettled 1 sampleLoginOk]))
        (.fetchSettled 0 (.response (sampleInvoicesOk [sampleInvoice 7 5, sampleInvoice 3 9])))
      ).ui.invoices = .array [sampleInvoice 7 5, sampleInvoice 3 9] :=
  ⟨rfl, rfl, rfl,
    congrArg UIState.invoices
      (fetchInvoices_returns_value_array sampleNumberToString sampleMounted 0 "C20000".toList
        sampleLoginOk sampleLoginData [.load "C30000".toList] [.loginSettled 1 sampleLoginOk]
        (sampleInvoicesOk [sampleInvoice 7 5, sampleInvoice 3 9])
        (.object [("value", .array [sampleInvoice 7 5, sampleInvoice 3 9])])
        [sampleInvoice 7 5, sampleInvoice 3 9] "" Components.ListState.initial
        rfl rfl rfl (by simp [Event.cycle?]) (by simp [Event.cycle?]) rfl rfl rfl).2.1⟩

/-- C3: when the invoice response is ok and the `value` of its JSON body is
absent or `null`, `fetchInvoices` returns the empty array. In a cycle whose
login succeeded and whose request was made, the moment the invoice request
settles `invoices` becomes the empty array and `loading` false, and `error`
stays as it is; `InvoicesList` stores the empty array with `error` equal to
`null`. -/
theorem fetchInvoices_absent_value_is_empty (nts : JSNumber → List Char) (s : State) (i : Nat)
    (customerCode : List Char) (netL : NetOutcome) (loginData : LoginData)
    (mid1 mid2 : List Event) (r : Response) (data : JSValue)
    (typeErrorMessage : String) (st : Components.ListState)
    (hphase : s.cycles[i]? = some { customerCode := customerCode, phase := .loggingIn })
    (hlogin : (login netL s.ui).2 = .ok loginData)
    (hsession : loginData.sessionId.unprintable = false)
    (hmid1 : ∀ e ∈ mid1, e.cycle? ≠ some i) (hmid2 : ∀ e ∈ mid2, e.cycle? ≠ some i)
    (hok : r.ok = true) (hjson : r.json = .ok data)
    (hvalue : data.prop "value" = .ok .undefined ∨ data.prop "value" = .ok .null) :
    fetchInvoices (.response r) = .ok (.array []) ∧
    (step nts (run nts s ([.loginSettled i netL] ++ mid1 ++ [.timerFired i] ++ mid2))
        (.fetchSettled i (.response r))).ui =
      { (run nts s ([.loginSettled i netL] ++ mid1 ++ [.timerFired i] ++ mid2)).ui with
        invoices := .array [], loading := false } ∧
    (Components.fetchInvoices typeErrorMessage (.response r) st).invoices = .array [] ∧
    (Components.fetchInvoices typeErrorMessage (.response r) st).error = none := by
  have hf : fetchInvoices (.response r) = .ok (.array []) := by
    rcases hvalue with h | h
    · exact fetchInvoices_of_value r data _ hok hjson h
    · exact fetchInvoices_of_value r data _ hok hjson h
  have hc : Components.fetchInvoicesTry (.response r) = .ok (.array []) := by
    rcases hvalue with h | h
    · exact Components.fetchInvoicesTry_of_value r data _ hok hjson h
    · exact Components.fetchInvoicesTry_of_value r data _ hok hjson h
  refine ⟨hf, ?_, ?_, ?_⟩
  · rw [step_fetchSettled_ok nts _ i customerCode _ _
      (run_to_fetching nts s i customerCode netL loginData mid1 mid2 hphase hlogin hsession
        hmid1 hmid2) hf]
  · simp only [Components.fetchInvoices, hc]
  · simp only [Components.fetchInvoices, hc]

/-- C3, at a concrete run from the mounted component: the body of the invoice
response has no `value` property; the result is the empty array and `error`
is still the empty string. -/
theorem fetchInvoices_absent_value_is_empty_witness :
    sampleMounted.cycles[0]? = some { customerCode := "C20000".toList, phase := .loggingIn } ∧
    (login sampleLoginOk sampleMounted.ui).2 = .ok sampleLoginData ∧
    sampleLoginData.sessionId.unprintable = false ∧
    fetchInvoices (.response sampleInvoicesNoValue) = .ok (.array []) ∧
    (step sampleNumberToString
        (run sampleNumberToString sampleMounted
          ([.loginSettled 0 sampleLoginOk] ++ [] ++ [.timerFired 0] ++ []))
        (.fetchSettled 0 (.response sampleInvoicesNoValue))).ui.error = "" ∧
    (Components.fetchInvoices "" (.response sampleInvoicesNoValue)
      Components.ListState.initial).error = none :=
  ⟨rfl, rfl, rfl,
    (fetchInvoices_absent_value_is_empty sampleNumberToString sampleMounted 0 "C20000".toList
      sampleLoginOk sampleLoginData [] []
      sampleInvoicesNoValue (.object [("odata.metadata", .string "Invoices".toList)]) ""
      Components.ListState.initial rfl rfl rfl (by simp) (by simp) rfl rfl (Or.inl rfl)).1,
    congrArg UIState.error
      (fetchInvoices_absent_value_is_empty sampleNumberToString sampleMounted 0 "C20000".toList
        sampleLoginOk sampleLoginData [] []
        sampleInvoicesNoValue (.object [("odata.metadata", .string "Invoices".toList)]) ""
        Components.ListState.initial rfl rfl rfl (by simp) (by simp) rfl rfl (Or.inl rfl)).2.1,
    (fetchInvoices_absent_value_is_empty sampleNumberToString sampleMounted 0 "C20000".toList
      sampleLoginOk sampleLoginData [] []
      sampleInvoicesNoValue (.object [("odata.metadata", .string "Invoices".toList)]) ""
      Components.ListState.initial rfl rfl rfl (by simp) (by simp) rfl rfl (Or.inl rfl)).2.2.2⟩

/-- C4, as stated, fails: for the header `B1SESSION=abc; ROUTEID=xyz, Path=/`
the map returned by `extractSessionCookies` has no `ROUTEID` property and has
a `Path` property, so it is not the map with `B1SESSION` and `ROUTEID`. -/
theorem extractSessionCookies_composite_not_spec :
    Cookies.get (extractSessionCookies (some "B1SESSION=abc; ROUTEID=xyz, Path=/".toList))
      "ROUTEID".toList = none ∧
    Cookies.get (extractSessionCookies (some "B1SESSION=abc; ROUTEID=xyz, Path=/".toList))
      "Path".toList = some "/".toList ∧
    extractSessionCookies (some "B1SESSION=abc; ROUTEID=xyz, Path=/".toList) ≠
      [("B1SESSION".toList, "abc".toList), ("ROUTEID".toList, "xyz".toList)] := by
  decide

/-- C4, amended: for the header `B1SESSION=abc; ROUTEID=xyz, Path=/` the map
returned by `extractSessionCookies` is exactly `B1SESSION = abc`, `Path = /`:
of each comma-separated entry only the text before its first `;` is read, so
`ROUTEID=xyz` adds nothing and the entry `Path=/` adds a pair. -/
theorem extractSessionCookies_composite :
    extractSessionCookies (some "B1SESSION=abc; ROUTEID=xyz, Path=/".toList) =
      [("B1SESSION".toList, "abc".toList), ("Path".toList, "/".toList)] := by
  decide

/-- C5, at the failing input: a login whose `set-cookie` header is
`ROUTEID= ; Path=/` returns cookies in which `ROUTEID` is present with the
empty value (the blank value stored by `extractSessionCookies`), and the
`Cookie` header is then `B1SESSION=tok`, not `B1SESSION=tok; ROUTEID=`. -/
theorem cookieString_blank_route :
    (login sampleLoginBlankRoute UIState.initial).2 =
      .ok { sessionId := .string "tok".toList, cookies := [("ROUTEID".toList, [])] } ∧
    Cookies.get [("ROUTEID".toList, [])] "ROUTEID".toList = some [] ∧
    cookieString sampleNumberToString
      { sessionId := .string "tok".toList, cookies := [("ROUTEID".toList, [])] } =
      .ok "B1SESSION=tok".toList := by
  refine ⟨rfl, rfl, rfl⟩

/-- C6, as stated, fails: for a login response with status 200 whose body has
no `SessionId`, `login` does not fail; it returns an object whose `sessionId`
is `undefined`. -/
theorem login_without_session_id_succeeds :
    login sampleLoginNoSession UIState.initial =
      ({ UIState.initial with loginStatus := "LOGIN SUCCESS" },
        .ok { sessionId := .undefined, cookies := [] }) := by
  rfl

/-- C6, amended: `login` fails with the message `LOGIN FAILED` whenever the
request is rejected, the status is not ok, or the body is unparsable or
`null`; for an ok response with any other body it returns `data.SessionId` as
it is, `undefined` when the body lacks it, together with the cookies. -/
theorem login_contract (net : NetOutcome) (r : Response) (data sessionId : JSValue)
    (ui : UIState)
    (hfail : loginFails net = true)
    (hok : r.ok = true) (hjson : r.json = .ok data)
    (hsession : data.prop "SessionId" = .ok sessionId) :
    (login net ui).2 = .error "LOGIN FAILED" ∧
    (login (.response r) ui).2 =
      .ok { sessionId := sessionId, cookies := extractSessionCookies r.setCookie } := by
  constructor
  · rw [login_of_fails net ui hfail]
  · simp [login, loginTry, hok, hjson, hsession]

/-- C6, amended, at concrete responses: status 401 fails, and status 200 with
an empty `SessionId` returns the empty token. -/
theorem login_contract_witness :
    loginFails sampleUnauthorized = true ∧
    (login sampleUnauthorized UIState.initial).2 = .error "LOGIN FAILED" ∧
    (login (.response sampleLoginEmptySession) UIState.initial).2 =
      .ok { sessionId := .string [], cookies := [] } :=
  ⟨rfl,
    (login_contract sampleUnauthorized sampleLoginEmptySession
      (.object [("SessionId", .string [])]) (.string []) UIState.initial rfl rfl rfl rfl).1,
    (login_contract sampleUnauthorized sampleLoginEmptySession
      (.object [("SessionId", .string [])]) (.string []) UIState.initial rfl rfl rfl rfl).2⟩

/-- C7, as stated, fails: in `sampleSuperseded` the second cycle starts while
the timer of the first is pending, and still the first cycle calls
`fetchInvoices` and issues its invoice GET (with its own customer code), both
GETs are issued, and the result of the first cycle, which settles last, is
what `invoices` holds. -/
theorem superseded_cycle_fetch_observed :
    (run sampleNumberToString State.initial (sampleSuperseded.take 2)).cycles[0]? =
      some { customerCode := "C20000".toList, phase := .waiting sampleLoginData } ∧
    (run sampleNumberToString State.initial sampleSuperseded).calls =
      [.loginPost 0, .setTimeout 0, .loginPost 1, .setTimeout 1,
       .fetchInvoices 0 sampleLoginData "C20000".toList,
       .invoicesGet 0 (sampleRequest "C20000".toList),
       .fetchInvoices 1 sampleLoginData "C30000".toList,
       .invoicesGet 1 (sampleRequest "C30000".toList)] ∧
    (run sampleNumberToString State.initial sampleSuperseded).fetchCallCount 0 = 1 ∧
    (run sampleNumberToString State.initial sampleSuperseded).fetchCallCount 1 = 1 ∧
    (run sampleNumberToString State.initial sampleSuperseded).ui.invoices =
      .array [sampleInvoice 21 5] := by
  refine ⟨rfl, rfl, rfl, rfl, rfl⟩

/-- C7, amended: while the 5000 ms timer of a cycle is pending, starting
further cycles (and any events of other cycles) leaves that timer pending;
when it fires, `fetchInvoices` is called with the login data and customer
code of that cycle. If building the request throws, `error` is set at once and
the cycle ends without a GET; otherwise the GET is issued, `loading` is set,
and when the request settles the result is written to `invoices` or
`error`. -/
theorem superseded_cycle_still_fetches (nts : JSNumber → List Char) (s : State) (i : Nat)
    (customerCode : List Char) (loginData : LoginData) (mid : List Event) (net : NetOutcome)
    (hphase : s.cycles[i]? = some { customerCode := customerCode, phase := .waiting loginData })
    (hmid : ∀ e ∈ mid, e.cycle? ≠ some i) :
    (run nts s mid).cycles[i]? =
      some { customerCode := customerCode, phase := .waiting loginData } ∧
    step nts (run nts s mid) (.timerFired i) =
      (match fetchInvoicesRequest nts loginData customerCode with
        | .ok request =>
          { ((run nts s mid).setPhase i customerCode .fetching) with
            ui := { (run nts s mid).ui with loading := true }
            calls := (run nts s mid).calls ++
              [.fetchInvoices i loginData customerCode, .invoicesGet i request] }
        | .error message =>
          { ((run nts s mid).setPhase i customerCode .finished) with
            ui := { (run nts s mid).ui with error := message, loading := false }
            calls := (run nts s mid).calls ++ [.fetchInvoices i loginData customerCode] }) ∧
    (step nts (step nts (run nts s mid) (.timerFired i)) (.fetchSettled i net)).ui =
      (match fetchInvoicesRequest nts loginData customerCode with
        | .ok _ =>
          match fetchInvoices net with
          | .ok invoicesData =>
            { (run nts s mid).ui with invoices := invoicesData, loading := false }
          | .error message => { (run nts s mid).ui with error := message, loading := false }
        | .error message => { (run nts s mid).ui with error := message, loading := false }) := by
  have hc := run_cycles_of_ne nts mid s i _ hmid hphase
  refine ⟨hc, ?_, ?_⟩
  · cases hr : fetchInvoicesRequest nts loginData customerCode with
    | ok request => exact step_timerFired_ok nts _ i customerCode loginData request hc hr
    | error m => exact step_timerFired_error nts _ i customerCode loginData m hc hr
  · cases hr : fetchInvoicesRequest nts loginData customerCode with
    | ok request =>
      have h2 := step_timerFired_ok nts _ i customerCode loginData request hc hr
      have hc2 : (step nts (run nts s mid) (.timerFired i)).cycles[i]? =
          some { customerCode := customerCode, phase := .fetching } := by
        rw [h2]
        exact setPhase_getElem?_self _ i _ _ _ hc
      have hu2 : (step nts (run nts s mid) (.timerFired i)).ui =
          { (run nts s mid).ui with loading := true } := by
        rw [h2]
      cases hf : fetchInvoices net with
      | ok value =>
        rw [step_fetchSettled_ok nts _ i customerCode net value hc2 hf]
        simp only [hu2]
      | error m =>
        rw [step_fetchSettled_error nts _ i customerCode net m hc2 hf]
        simp only [hu2]
    | error m =>
      have h2 := step_timerFired_error nts _ i customerCode loginData m hc hr
      have hc2 : (step nts (run nts s mid) (.timerFired i)).cycles[i]? =
          some { customerCode := customerCode, phase := .finished } := by
        rw [h2]
        exact setPhase_getElem?_self _ i _ _ _ hc
      rw [step_fetchSettled_finished nts _ i customerCode net hc2, h2]

/-- C7, amended, at a concrete run: a second cycle is started and logs in
while the timer of the first is pending; the timer of the first then fires
and its GET is issued. -/
theorem superseded_cycle_still_fetches_witness :
    (run sampleNumberToString State.initial
      [.load "C20000".toList, .loginSettled 0 sampleLoginOk]).cycles[0]? =
      some { customerCode := "C20000".toList, phase := .waiting sampleLoginData } ∧
    (∀ e ∈ [Event.load "C30000".toList, Event.loginSettled 1 sampleLoginOk],
      e.cycle? ≠ some 0) ∧
    (step sampleNumberToString
      (run sampleNumberToString
        (run sampleNumberToString State.initial
          [.load "C20000".toList, .loginSettled 0 sampleLoginOk])
        [.load "C30000".toList, .loginSettled 1 sampleLoginOk]) (.timerFired 0)).calls =
      (run sampleNumberToString
        (run sampleNumberToString State.initial
          [.load "C20000".toList, .loginSettled 0 sampleLoginOk])
        [.load "C30000".toList, .loginSettled 1 sampleLoginOk]).calls ++
        [.fetchInvoices 0 sampleLoginData "C20000".toList,
         .invoicesGet 0 (sampleRequest "C20000".toList)] :=
  ⟨rfl, by simp [Event.cycle?],
    congrArg State.calls
      (superseded_cycle_still_fetches sampleNumberToString
        (run sampleNumberToString State.initial
          [.load "C20000".toList, .loginSettled 0 sampleLoginOk]) 0
        "C20000".toList sampleLoginData [.load "C30000".toList, .loginSettled 1 sampleLoginOk]
        (.rejected "") rfl (by simp [Event.cycle?])).2.1⟩

/-- C8: in a load cycle the error message is decided by the phase that
fails, whatever the cause. If `login` fails, `error` is `LOGIN FAILED`; if
`login` succeeds and `fetchInvoices` fails, before its request (the session
identifier cannot be written into the header) or after it (rejected request,
non-ok status, unparsable or null body), `error` is `LOADING INVOICES FAILED`;
if both succeed, `error` is left as it was. The two messages differ. -/
theorem loadInvoices_error_by_phase (nts : JSNumber → List Char) (s : State) (i : Nat)
    (customerCode : List Char) (netL netF : NetOutcome)
    (hphase : s.cycles[i]? = some { customerCode := customerCode, phase := .loggingIn }) :
    (run nts s [.loginSettled i netL, .timerFired i, .fetchSettled i netF]).ui.error =
      (match (login netL s.ui).2 with
        | .error _ => "LOGIN FAILED"
        | .ok loginData =>
          if loginData.sessionId.unprintable || fetchFails netF then "LOADING INVOICES FAILED"
          else s.ui.error) ∧
    ("LOGIN FAILED" : String) ≠ "LOADING INVOICES FAILED" := by
  refine ⟨?_, by decide⟩
  cases hL : (login netL s.ui).2 with
  | error m =>
    have hfail : loginFails netL = true := by
      cases hf : loginFails netL with
      | true => rfl
      | false =>
        obtain ⟨r, data, sid, -, -, -, -, hl⟩ := login_of_not_fails netL s.ui hf
        rw [hl] at hL
        cases hL
    rw [run_cycle_login_fails nts s i customerCode netL netF hphase hfail]
  | ok loginData =>
    cases hS : loginData.sessionId.unprintable with
    | true =>
      rw [run_cycle_request_fails nts s i customerCode netL netF loginData hphase hL hS]
      simp [hS]
    | false =>
      cases hF : fetchFails netF with
      | true =>
        rw [run_cycle_fetch_fails nts s i customerCode netL netF loginData hphase hL hS hF]
        simp [hS]
      | false =>
        obtain ⟨value, hv⟩ := fetchInvoices_of_not_fails netF hF
        rw [run_cycle_ok nts s i customerCode netL netF loginData value hphase hL hS hv]
        simp [hS]

/-- C8, at concrete runs from the mounted component: when login and fetch
both succeed with an empty result `error` is still the empty string, and when
the session identifier cannot be written into the header `error` is
`LOADING INVOICES FAILED`. -/
theorem loadInvoices_error_by_phase_witness :
    sampleMounted.cycles[0]? = some { customerCode := "C20000".toList, phase := .loggingIn } ∧
    (run sampleNumberToString sampleMounted [.loginSettled 0 sampleLoginOk, .timerFired 0,
      .fetchSettled 0 (.response (sampleInvoicesOk []))]).ui.error = "" ∧
    (run sampleNumberToString sampleMounted [.loginSettled 0 sampleLoginUnprintable,
      .timerFired 0, .fetchSettled 0 (.response (sampleInvoicesOk []))]).ui.error =
      "LOADING INVOICES FAILED" :=
  ⟨rfl,
    (loadInvoices_error_by_phase sampleNumberToString sampleMounted 0 "C20000".toList
      sampleLoginOk (.response (sampleInvoicesOk [])) rfl).1,
    (loadInvoices_error_by_phase sampleNumberToString sampleMounted 0 "C20000".toList
      sampleLoginUnprintable (.response (sampleInvoicesOk [])) rfl).1⟩

/-- C9: for documents whose `DocTotal` is each a number or absent, the
summary total is the sum, from left to right and starting from 0, of the
`DocTotal` values with each absent one counted as zero, every addition being
the binary64 addition of `+`; it is 0 for no documents. -/
theorem summaryTotal_eq_sum (invoices : List JSValue)
    (h : ∀ inv ∈ invoices, Components.hasNumericOrAbsentTotal inv) :
    Components.summaryTotal invoices =
      some (.number (Components.sumLeftToRight (invoices.map Components.docTotalOrZero))) ∧
    Components.summaryTotal [] = some (.number (.zero false)) := by
  constructor
  · rw [Components.summaryTotal, Components.reduceFrom_number invoices _ h]
    rfl
  · rfl

/-- C9, at the totals 10.50, absent, `null`, 5.00: the summary total is
15.50. -/
theorem summaryTotal_eq_sum_witness :
    Components.summaryTotal
      [.object [("DocNum", .number (.finite 1)), ("DocTotal", .number (JSNumber.round (21 / 2)))],
       .object [("DocNum", .number (.finite 2))],
       .object [("DocNum", .number (.finite 3)), ("DocTotal", .null)],
       .object [("DocNum", .number (.finite 4)), ("DocTotal", .number (JSNumber.round 5))]] =
      some (.number (.finite (31 / 2))) :=
  ((summaryTotal_eq_sum
      [.object [("DocNum", .number (.finite 1)), ("DocTotal", .number (JSNumber.round (21 / 2)))],
       .object [("DocNum", .number (.finite 2))],
       .object [("DocNum", .number (.finite 3)), ("DocTotal", .null)],
       .object [("DocNum", .number (.finite 4)), ("DocTotal", .number (JSNumber.round 5))]]
      (by
        intro inv hinv
        simp only [List.mem_cons, List.mem_singleton, List.not_mem_nil, or_false] at hinv
        rcases hinv with rfl | rfl | rfl | rfl
        · exact Or.inl ⟨_, rfl⟩
        · exact Or.inr (Or.inl rfl)
        · exact Or.inr (Or.inr rfl)
        · exact Or.inl ⟨_, rfl⟩)).1).trans
    (congrArg (fun n => some (JSValue.number n)) (by decide!))

/-- C10, at the failing input: for the header `ROUTEID= ; Path=/` the value
passes the guard as one blank and is stored trimmed, so the returned map has
the pair `ROUTEID` with the empty value. -/
theorem extractSessionCookies_blank_value :
    extractSessionCookies (some "ROUTEID= ; Path=/".toList) = [("ROUTEID".toList, [])] := by
  decide

end InvoicesList
